import Mathlib

/-!
# Natron curve editor widget (`Gui/CurveWidget.cpp`)

A shallow embedding of the viewport transform, the hit-test and drag engine and the
curve registry of `CurveWidget`, followed by theorems about them.

Conventions of the embedding:

* `double` values are rationals (`ℚ`), and a statement is in exact arithmetic unless it
  says otherwise.  Where a double is cast to `int` the cast turns a rounding error into
  another integer, so `toWidgetCoordinates` rounds the result of every operation as the
  program does (`roundDouble`: IEEE 754 binary64, to nearest, ties to even, each
  operation rounded on its own) and casts to the 32-bit `int` (`toInt`);
  `toScaleCoordinatesDouble` is `toScaleCoordinates` with the same roundings.  Where a
  division by zero decides the outcome (centring on a rectangle without width or height)
  the quotient is a `Double`, which has the infinities and the not-a-number value.
* `int` values are `Int`.
* A `KeyFrame*` is an address (`Nat`) into the key frame heap `keyFrames` of the
  widget state; a `CurveGui*` is the address stored in the field `ptr` of the
  curve view it points to.
* Drawing calls (`updateGL`, `setCursor`, the `gl*` calls) do not touch the modelled
  fields and are omitted.
-/

namespace CurveWidget

/-! ## Data model -/

/-- The constant `static double ASPECT_RATIO = 0.1;`. -/
def ASPECT_RATIO : ℚ := 1 / 10

/-- The constant `#define CLICK_DISTANCE_FROM_CURVE_ACCEPTANCE 5`. -/
def CLICK_DISTANCE_FROM_CURVE_ACCEPTANCE : Int := 5

/-- Truncation of a number toward zero to an integer, without a limit of range: the
rounding toward zero of the statements, and the value of the cast `(int)d` when it is
within the range of `int`. -/
def truncate (d : ℚ) : Int := if 0 ≤ d then ⌊d⌋ else ⌈d⌉

/-- The C++ conversion `(int)d` of a double to the 32-bit `int`: truncation toward zero.
For a value whose truncation is outside the range of `int` the C++ standard defines no
result; the conversion instruction of x86-64 returns `INT_MIN`, which is the result
here. -/
def toInt (d : ℚ) : Int :=
  if -2147483648 ≤ truncate d ∧ truncate d ≤ 2147483647 then truncate d else -2147483648

/-- Rounding of a number to the nearest integer, a tie going to the even one. -/
def roundHalfEven (q : ℚ) : Int :=
  if q - ⌊q⌋ < 1 / 2 then ⌊q⌋
  else if 1 / 2 < q - ⌊q⌋ then ⌊q⌋ + 1
  else if ⌊q⌋ % 2 = 0 then ⌊q⌋
  else ⌊q⌋ + 1

/-- The rounding that IEEE 754 binary64 arithmetic applies to the exact result of an
operation (to nearest, ties to even): the nearest number with 53 significant bits.  The
exponent is not limited: overflow and subnormal numbers are left out. -/
def roundDouble (q : ℚ) : ℚ :=
  if q = 0 then 0
  else
    let e := Int.log 2 |q|
    (roundHalfEven (q * 2 ^ (52 - e)) : ℚ) * 2 ^ (e - 52)

/-- A key frame as the widget sees it: `getTime()` and `getValue().toDouble()`. -/
structure KeyFrame where
  time : ℚ
  value : ℚ

/-- Modelled from the spec: `QColor` restricted to its HSV components.  The class is
not part of the sources; `hsvHue`, `hsvSaturation` and `value` read the components
back. -/
structure QColor where
  hsvHue : Int
  hsvSaturation : Int
  value : Int
deriving DecidableEq, Repr

/-- Modelled from the spec: `QColor::setHsv(h, s, v)`, which is not part of the
sources, for a hue `h ≥ 0` and a saturation and value within 0..255, as `CurveWidget`
passes them.  The hue wraps at 360 degrees; saturation and value are stored as given. -/
def QColor.setHsv (_c : QColor) (h s v : Int) : QColor :=
  { hsvHue := h % 360, hsvSaturation := s, value := v }

/-- The class `CurveGui`: a curve view.  `ptr` is the address of the object,
`keys` is `getInternalCurve()->getKeyFrames()` (a sequence of `KeyFrame*`). -/
structure CurveGui where
  ptr : Nat
  keys : List Nat
  color : QColor
  thickness : Int
  visible : Bool
  selected : Bool
deriving DecidableEq, Repr

/-- The interaction mode `_state`. -/
inductive EventState where
  | NONE
  | DRAGGING_VIEW
  | DRAGGING_KEYS
deriving DecidableEq, Repr

/-- The member `_zoomCtx`. -/
structure ZoomContext where
  bottom : ℚ
  left : ℚ
  zoomFactor : ℚ
  oldClick : Int × Int

/-- The state of a `CurveWidget`: the members its operations read and write, the
widget size reported by `width()` and `height()`, and the heap of key frames. -/
structure Widget where
  width : Int
  height : Int
  zoomCtx : ZoomContext
  state : EventState
  nextCurveAddedColor : QColor
  curves : List CurveGui
  selectedKeyFrames : List (Nat × Nat)
  mustSetDragOrientation : Bool
  mouseDragOrientation : Int × Int
  keyFrames : Nat → KeyFrame

/-! ## Viewport transform -/

/-- `CurveWidget::toScaleCoordinates(int x, int y)`. -/
def toScaleCoordinates (s : Widget) (x y : Int) : ℚ × ℚ :=
  let w : ℚ := s.width
  let h : ℚ := s.height
  let bottom := s.zoomCtx.bottom
  let left := s.zoomCtx.left
  let top := bottom + h / s.zoomCtx.zoomFactor * ASPECT_RATIO
  let right := left + w / s.zoomCtx.zoomFactor
  ((((right - left) * x) / w) + left, (((bottom - top) * y) / h) + top)

/-- `CurveWidget::toWidgetCoordinates(double x, double y)`, as the program computes it:
the result of every operation is rounded to a double before the next one, `ASPECT_RATIO`
is the double nearest to 0.1, and the two casts are to the 32-bit `int`.  The members of
`_zoomCtx` and the arguments are doubles; the divisions are by non-zero doubles (a zoom
factor, `right - left` and `bottom - top` other than 0). -/
def toWidgetCoordinates (s : Widget) (x y : ℚ) : Int × Int :=
  let w : ℚ := s.width
  let h : ℚ := s.height
  let bottom := s.zoomCtx.bottom
  let left := s.zoomCtx.left
  let top := roundDouble
    (bottom + roundDouble (roundDouble (h / s.zoomCtx.zoomFactor) * roundDouble ASPECT_RATIO))
  let right := roundDouble (left + roundDouble (w / s.zoomCtx.zoomFactor))
  (toInt (roundDouble (roundDouble (roundDouble (x - left) / roundDouble (right - left)) * w)),
   toInt (roundDouble (roundDouble (roundDouble (y - top) / roundDouble (bottom - top)) * h)))

/-- The two doubles to which `CurveWidget::toWidgetCoordinates` applies its casts, as the
program computes them. -/
def widgetPositionDouble (s : Widget) (x y : ℚ) : ℚ × ℚ :=
  let w : ℚ := s.width
  let h : ℚ := s.height
  let bottom := s.zoomCtx.bottom
  let left := s.zoomCtx.left
  let top := roundDouble
    (bottom + roundDouble (roundDouble (h / s.zoomCtx.zoomFactor) * roundDouble ASPECT_RATIO))
  let right := roundDouble (left + roundDouble (w / s.zoomCtx.zoomFactor))
  (roundDouble (roundDouble (roundDouble (x - left) / roundDouble (right - left)) * w),
   roundDouble (roundDouble (roundDouble (y - top) / roundDouble (bottom - top)) * h))

/-- The position in widget coordinates to which `CurveWidget::toWidgetCoordinates`
applies its casts, in exact arithmetic: the value that the doubles of the program
approximate. -/
def widgetPosition (s : Widget) (x y : ℚ) : ℚ × ℚ :=
  let w : ℚ := s.width
  let h : ℚ := s.height
  let bottom := s.zoomCtx.bottom
  let left := s.zoomCtx.left
  let top := bottom + h / s.zoomCtx.zoomFactor * ASPECT_RATIO
  let right := left + w / s.zoomCtx.zoomFactor
  (((x - left) / (right - left)) * w, ((y - top) / (bottom - top)) * h)

/-- `CurveWidget::toScaleCoordinates(int x, int y)`, as the program computes it: the
result of every operation is rounded to a double before the next one.
`toScaleCoordinates` is the exact value that it approximates. -/
def toScaleCoordinatesDouble (s : Widget) (x y : Int) : ℚ × ℚ :=
  let w : ℚ := s.width
  let h : ℚ := s.height
  let bottom := s.zoomCtx.bottom
  let left := s.zoomCtx.left
  let top := roundDouble
    (bottom + roundDouble (roundDouble (h / s.zoomCtx.zoomFactor) * roundDouble ASPECT_RATIO))
  let right := roundDouble (left + roundDouble (w / s.zoomCtx.zoomFactor))
  (roundDouble (roundDouble (roundDouble (roundDouble (right - left) * x) / w) + left),
   roundDouble (roundDouble (roundDouble (roundDouble (bottom - top) * y) / h) + top))

/-- `CurveWidget::wheelEvent`.  `vertical` is `event->orientation() == Qt::Vertical`,
`delta` is `event->delta()`, `(x, y)` is the pointer position.  The macro
`NATRON_WHEEL_ZOOM_PER_DELTA`, a positive constant defined outside the sources, is the
parameter `zoomPerDelta`; `std::pow` with a non-negative integer exponent is `^`. -/
def wheelEvent (zoomPerDelta : ℚ) (s : Widget) (vertical : Bool) (delta x y : Int) : Widget :=
  if !vertical then s
  else
    let newZoomFactor : ℚ :=
      if delta > 0 then s.zoomCtx.zoomFactor * zoomPerDelta ^ delta.toNat
      else s.zoomCtx.zoomFactor / zoomPerDelta ^ (-delta).toNat
    let newZoomFactor : ℚ :=
      if newZoomFactor ≤ 1 / 100 then 1 / 100
      else if newZoomFactor > 1024 then 1024
      else newZoomFactor
    let zoomCenter := toScaleCoordinates s x y
    let zoomRatio := s.zoomCtx.zoomFactor / newZoomFactor
    let left := zoomCenter.1 - (zoomCenter.1 - s.zoomCtx.left) * zoomRatio
    let bottom := zoomCenter.2 - (zoomCenter.2 - s.zoomCtx.bottom) * zoomRatio
    { s with zoomCtx := { s.zoomCtx with left := left, bottom := bottom,
                                          zoomFactor := newZoomFactor } }

/-- `CurveWidget::centerOn(double xmin, double xmax, double ymin, double ymax)`.
Where the C++ divides by zero (a widget without width or height, a rectangle without
width or height) the IEEE result is an infinity or a NaN, which `ℚ` does not have; the
theorems on `centerOn` below assume positive sizes and `xmin < xmax`, `ymin < ymax`, and
`centerOnIEEE` is the function on the other rectangles. -/
def centerOn (s : Widget) (xmin xmax ymin ymax : ℚ) : Widget :=
  let curveWidth := xmax - xmin
  let curveHeight := ymax - ymin
  let w : ℚ := s.width
  let h : ℚ := s.height * ASPECT_RATIO
  if w / h < curveWidth / curveHeight then
    { s with zoomCtx := { s.zoomCtx with
        left := xmin
        zoomFactor := w / curveWidth
        bottom := (ymax + ymin) / 2 - ((h / w) * curveWidth / 2) } }
  else
    { s with zoomCtx := { s.zoomCtx with
        bottom := ymin
        zoomFactor := h / curveHeight
        left := (xmax + xmin) / 2 - ((w / h) * curveHeight / 2) } }

/-- `CurveWidget::resizeGL(int width, int height)`: the arguments only feed
`glViewport`; the view is re-centred on the default range. -/
def resizeGL (s : Widget) (_width _height : Int) : Widget :=
  centerOn s (-10) 500 (-10) 10

/-- The visible domain rectangle of the viewport, as `paintGL` computes it:
`(left, right, bottom, top)`. -/
def visibleRect (s : Widget) : ℚ × ℚ × ℚ × ℚ :=
  let w : ℚ := s.width
  let h : ℚ := s.height
  let bottom := s.zoomCtx.bottom
  let left := s.zoomCtx.left
  let top := bottom + h / s.zoomCtx.zoomFactor * ASPECT_RATIO
  let right := left + (w / s.zoomCtx.zoomFactor)
  (left, right, bottom, top)

/-! ## Centering on curves -/

/-- Modelled from the spec: `RectD` of `Engine/Rect.h`, which is not part of the
sources.  A rectangle has four edges; a default-constructed rectangle is null (it
holds no box yet) with all edges 0. -/
structure RectD where
  left : ℚ
  bottom : ℚ
  right : ℚ
  top : ℚ
  null : Bool

/-- Modelled from the spec: the default constructor `RectD()`. -/
def RectD.default : RectD := { left := 0, bottom := 0, right := 0, top := 0, null := true }

/-- Modelled from the spec: `RectD::width()`. -/
def RectD.width (r : RectD) : ℚ := r.right - r.left

/-- Modelled from the spec: `RectD::height()`. -/
def RectD.height (r : RectD) : ℚ := r.top - r.bottom

/-- Modelled from the spec: `RectD::merge(l, b, r, t)`, the union bounding box of the
rectangle and the box given; merging into a null rectangle gives the box. -/
def RectD.merge (ret : RectD) (l b r t : ℚ) : RectD :=
  if ret.null then { left := l, bottom := b, right := r, top := t, null := false }
  else { left := min ret.left l, bottom := min ret.bottom b,
         right := max ret.right r, top := max ret.top t, null := false }

/-- Modelled from the spec: `Curve::getMinimumTimeCovered()`, the time of the first key
frame of the ordered key frame sequence (0 for a curve without key frames).  The class
`Curve` is not part of the sources. -/
def getMinimumTimeCovered (s : Widget) (c : CurveGui) : ℚ :=
  match c.keys.head? with
  | some k => (s.keyFrames k).time
  | none => 0

/-- Modelled from the spec: `Curve::getMaximumTimeCovered()`, the time of the last key
frame of the ordered key frame sequence (0 for a curve without key frames). -/
def getMaximumTimeCovered (s : Widget) (c : CurveGui) : ℚ :=
  match c.keys.getLast? with
  | some k => (s.keyFrames k).time
  | none => 0

/-- The constant `INT_MAX`. -/
def INT_MAX : ℚ := 2147483647

/-- The constant `INT_MIN`. -/
def INT_MIN : ℚ := -2147483648

/-- The inner loop of `centerOn(const std::vector<CurveGui*>&)`: the pair
`(ymin, ymax)` over the key frame values of one curve. -/
def valueRange (s : Widget) (c : CurveGui) : ℚ × ℚ :=
  c.keys.foldl
    (fun (acc : ℚ × ℚ) k =>
      let value := (s.keyFrames k).value
      let ymin := if value < acc.1 then value else acc.1
      let ymax := if value > acc.2 then value else acc.2
      (ymin, ymax))
    (INT_MAX, INT_MIN)

/-- The outer loop of `centerOn(const std::vector<CurveGui*>&)`: the rectangle `ret`
after all curves have been merged. -/
def curvesBoundingBox (s : Widget) (curves : List CurveGui) : RectD :=
  curves.foldl
    (fun ret c =>
      let xmin := getMinimumTimeCovered s c
      let xmax := getMaximumTimeCovered s c
      let r := valueRange s c
      ret.merge xmin r.1 xmax r.2)
    RectD.default

/-- The four `set_*` statements of `centerOn(const std::vector<CurveGui*>&)`, in the
order of the source: each reads `width()` or `height()` of the rectangle as it is at
that point. -/
def addMargins (ret : RectD) : RectD :=
  let ret := { ret with bottom := ret.bottom - ret.height / 10 }
  let ret := { ret with left := ret.left - ret.width / 10 }
  let ret := { ret with right := ret.right + ret.width / 10 }
  let ret := { ret with top := ret.top + ret.height / 10 }
  ret

/-- The arguments `(xmin, xmax, ymin, ymax)` with which
`centerOn(const std::vector<CurveGui*>&)` calls the four-argument `centerOn`. -/
def centerOnCurvesArgs (s : Widget) (curves : List CurveGui) : ℚ × ℚ × ℚ × ℚ :=
  let ret := addMargins (curvesBoundingBox s curves)
  (ret.left, ret.right, ret.bottom, ret.top)

/-- `CurveWidget::centerOn(const std::vector<CurveGui*>& curves)`. -/
def centerOnCurves (s : Widget) (curves : List CurveGui) : Widget :=
  let a := centerOnCurvesArgs s curves
  centerOn s a.1 a.2.1 a.2.2.1 a.2.2.2

/-! ## Curve registry -/

/-- Modelled from the spec: `Curve::getControlPointsCount()`, the number of key frames
of the curve.  The class `Curve` is not part of the sources. -/
def getControlPointsCount (keys : List Nat) : Nat := keys.length

/-- The constructor `CurveGui::CurveGui`, for the object allocated at address `ptr`
around a curve with key frames `keys`: a curve with more than one control point
starts visible. -/
def CurveGui.new (ptr : Nat) (keys : List Nat) (color : QColor) (thickness : Int) : CurveGui :=
  { ptr := ptr, keys := keys, color := color, thickness := thickness
    visible := decide (getControlPointsCount keys > 1), selected := false }

/-- Modelled from the spec: the colour `QColor(255, 255, 255)`, white, in HSV
components (an achromatic colour has hue -1). -/
def QColor.white : QColor := { hsvHue := -1, hsvSaturation := 0, value := 255 }

/-- Modelled from the spec: the default-constructed `QColor()`, in HSV components. -/
def QColor.default : QColor := { hsvHue := -1, hsvSaturation := 0, value := 0 }

/-- The constructor `CurveWidget::CurveWidget`, for a widget of the given size; the
initial `_zoomCtx` (constructed in the header, outside the sources) and the key frame
heap are parameters. -/
def Widget.new (width height : Int) (zoomCtx : ZoomContext) (keyFrames : Nat → KeyFrame) :
    Widget :=
  { width := width
    height := height
    zoomCtx := zoomCtx
    state := EventState.NONE
    nextCurveAddedColor := QColor.default.setHsv 200 255 255
    curves := []
    selectedKeyFrames := []
    mustSetDragOrientation := false
    mouseDragOrientation := (0, 0)
    keyFrames := keyFrames }

/-- `CurveWidget::createCurve`: `ptr` is the address that `new CurveGui` returns and
`keys` the key frames of the curve.  Returns the new state and the curve view created,
with the colour it was given. -/
def createCurve (s : Widget) (ptr : Nat) (keys : List Nat) : Widget × CurveGui :=
  let curveGui := CurveGui.new ptr keys QColor.white 1
  let curveGui := { curveGui with color := s.nextCurveAddedColor }
  let next := s.nextCurveAddedColor.setHsv (s.nextCurveAddedColor.hsvHue + 60)
    s.nextCurveAddedColor.hsvSaturation s.nextCurveAddedColor.value
  ({ s with curves := s.curves ++ [curveGui], nextCurveAddedColor := next }, curveGui)

/-- The innermost loop of `CurveWidget::removeCurve` followed by the `erase`: removes
the first selection entry whose key frame is `key`, if there is one. -/
def eraseSelectedKey : List (Nat × Nat) → Nat → List (Nat × Nat)
  | [], _ => []
  | it3 :: rest, key => if it3.2 = key then rest else it3 :: eraseSelectedKey rest key

/-- The outer loop of `CurveWidget::removeCurve` over `_curves`, returning the new
`_curves` and `_selectedKeyFrames`: at the first curve view whose address is `curve`,
its key frames are removed from the selection one by one, the view is erased, and the
loop ends. -/
def removeCurveLoop (curve : Nat) (selected : List (Nat × Nat)) :
    List CurveGui → List CurveGui × List (Nat × Nat)
  | [] => ([], selected)
  | it :: rest =>
    if it.ptr = curve then (rest, it.keys.foldl eraseSelectedKey selected)
    else ((it :: (removeCurveLoop curve selected rest).1),
          (removeCurveLoop curve selected rest).2)

/-- `CurveWidget::removeCurve(CurveGui* curve)`. -/
def removeCurve (s : Widget) (curve : Nat) : Widget :=
  { s with curves := (removeCurveLoop curve s.selectedKeyFrames s.curves).1
           selectedKeyFrames := (removeCurveLoop curve s.selectedKeyFrames s.curves).2 }

/-- A registration or removal request, for sequences of calls on a widget. -/
inductive RegistryOp where
  | create (ptr : Nat) (keys : List Nat)
  | remove (curve : Nat)

/-- Runs a sequence of `createCurve` and `removeCurve` calls and returns the colours
of the curve views created, in the order of creation. -/
def assignedColors : Widget → List RegistryOp → List QColor
  | _, [] => []
  | s, RegistryOp.create ptr keys :: ops =>
    (createCurve s ptr keys).2.color :: assignedColors (createCurve s ptr keys).1 ops
  | s, RegistryOp.remove curve :: ops => assignedColors (removeCurve s curve) ops

/-- The number of `createCurve` calls in a sequence of calls. -/
def createCount : List RegistryOp → Nat
  | [] => 0
  | RegistryOp.create _ _ :: ops => createCount ops + 1
  | RegistryOp.remove _ :: ops => createCount ops

/-! ## Hit test -/

/-- The acceptance test of `CurveWidget::isNearbyKeyFrame` for the key frame at address
`key`: its widget position is nearer than the click distance to `pt` in y and in x. -/
def keyFrameAccepted (s : Widget) (pt : Int × Int) (key : Nat) : Bool :=
  let keyFramewidgetPos :=
    toWidgetCoordinates s (s.keyFrames key).time (s.keyFrames key).value
  decide (|pt.2 - keyFramewidgetPos.2| < CLICK_DISTANCE_FROM_CURVE_ACCEPTANCE) &&
  decide (|pt.1 - keyFramewidgetPos.1| < CLICK_DISTANCE_FROM_CURVE_ACCEPTANCE)

/-- The inner loop of `CurveWidget::isNearbyKeyFrame` over the key frames of the curve
view at address `curve`. -/
def isNearbyKeyFrameKeys (s : Widget) (pt : Int × Int) (curve : Nat) :
    List Nat → Option (Nat × Nat)
  | [] => none
  | it2 :: rest =>
    if keyFrameAccepted s pt it2 then some (curve, it2)
    else isNearbyKeyFrameKeys s pt curve rest

/-- The outer loop of `CurveWidget::isNearbyKeyFrame` over `_curves`. -/
def isNearbyKeyFrameCurves (s : Widget) (pt : Int × Int) :
    List CurveGui → Option (Nat × Nat)
  | [] => none
  | it :: rest =>
    if it.visible then
      match isNearbyKeyFrameKeys s pt it.ptr it.keys with
      | some found => some found
      | none => isNearbyKeyFrameCurves s pt rest
    else isNearbyKeyFrameCurves s pt rest

/-- `CurveWidget::isNearbyKeyFrame(const QPoint& pt)`: the pair
`(CurveGui*, KeyFrame*)` found, `none` standing for the pair of null pointers. -/
def isNearbyKeyFrame (s : Widget) (pt : Int × Int) : Option (Nat × Nat) :=
  isNearbyKeyFrameCurves s pt s.curves

/-- The key frames a hit test can return, in the order it visits them: those of the
visible curve views, curve views in registration order, key frames in curve order. -/
def visibleKeyFrames (s : Widget) : List (Nat × Nat) :=
  (s.curves.filter fun c => c.visible).flatMap fun c => c.keys.map fun k => (c.ptr, k)

/-! ## Pointer moves: panning and key frame drag -/

/-- `KeyFrame::setTime(t)` through the pointer `key`. -/
def setTime (keyFrames : Nat → KeyFrame) (key : Nat) (t : ℚ) : Nat → KeyFrame :=
  Function.update keyFrames key { keyFrames key with time := t }

/-- `KeyFrame::setValue(v)` through the pointer `key`. -/
def setValue (keyFrames : Nat → KeyFrame) (key : Nat) (v : ℚ) : Nat → KeyFrame :=
  Function.update keyFrames key { keyFrames key with value := v }

/-- The test of `CurveWidget::mouseMoveEvent` before `setTime(newValue)`, for the key
frame found at position `foundKey` of `keys`: `prevKey` and `nextKey` are the neighbours
of the key frame, `none` standing for `keys.end()`; the new time must be after the
previous key frame's time, if there is one, and before the next one's, if there is one. -/
def withinNeighbours (keyFrames : Nat → KeyFrame) (keys : List Nat) (foundKey : Nat)
    (newValue : ℚ) : Bool :=
  let prevKey : Option Nat := if foundKey ≠ 0 then keys[foundKey - 1]? else none
  let nextKey : Option Nat := keys[foundKey + 1]?
  (match prevKey with
   | some p => decide (newValue > (keyFrames p).time)
   | none => true) &&
  (match nextKey with
   | some n => decide (newValue < (keyFrames n).time)
   | none => true)

/-- The body of the loop over `_selectedKeyFrames` in `CurveWidget::mouseMoveEvent`, for
the selection entry `it = (CurveGui*, KeyFrame*)`, on the key frame heap.  The result is
`none` when `it.1` is not the address of a registered curve view or when the assertion
`foundKey != keys.end()` fails. -/
def dragSelectedKey (curves : List CurveGui) (mouseDragOrientation : Int × Int)
    (newClick_opengl translation : ℚ × ℚ) (keyFrames : Nat → KeyFrame) (it : Nat × Nat) :
    Option (Nat → KeyFrame) :=
  let newTime := newClick_opengl.1
  let diffTime := (newTime - (keyFrames it.2).time) * mouseDragOrientation.1
  let afterTime : Option (Nat → KeyFrame) :=
    if diffTime ≠ 0 then
      let newValue : ℚ := (keyFrames it.2).time + ⌈diffTime⌉
      match curves.find? (fun c => c.ptr == it.1) with
      | none => none
      | some c =>
        let keys := c.keys
        let foundKey := keys.indexOf it.2
        if foundKey = keys.length then none
        else if withinNeighbours keyFrames keys foundKey newValue
        then some (setTime keyFrames it.2 newValue)
        else some keyFrames
    else some keyFrames
  afterTime.map fun kf => setValue kf it.2 ((kf it.2).value + translation.2)

/-- The loop over `_selectedKeyFrames` in `CurveWidget::mouseMoveEvent`. -/
def dragSelectedKeys (curves : List CurveGui) (mouseDragOrientation : Int × Int)
    (newClick_opengl translation : ℚ × ℚ) :
    List (Nat × Nat) → (Nat → KeyFrame) → Option (Nat → KeyFrame)
  | [], keyFrames => some keyFrames
  | it :: rest, keyFrames =>
    match dragSelectedKey curves mouseDragOrientation newClick_opengl translation keyFrames it with
    | none => none
    | some keyFrames' =>
      dragSelectedKeys curves mouseDragOrientation newClick_opengl translation rest keyFrames'

/-- `CurveWidget::mouseMoveEvent` with the pointer at pixel `(x, y)`.  The narrowing of
`dy` to `float` is exact here. -/
def mouseMoveEvent (s : Widget) (x y : Int) : Option Widget :=
  let orientation : Int × Int :=
    if s.mustSetDragOrientation then
      if |x - s.zoomCtx.oldClick.1| > |y - s.zoomCtx.oldClick.2| then (1, 0) else (0, 1)
    else s.mouseDragOrientation
  let newClick_opengl := toScaleCoordinates s x y
  let oldClick_opengl := toScaleCoordinates s s.zoomCtx.oldClick.1 s.zoomCtx.oldClick.2
  let s1 : Widget :=
    { s with mouseDragOrientation := orientation
             mustSetDragOrientation := false
             zoomCtx := { s.zoomCtx with oldClick := (x, y) } }
  match s.state with
  | EventState.DRAGGING_VIEW =>
    let dy := oldClick_opengl.2 - newClick_opengl.2
    some { s1 with zoomCtx := { s1.zoomCtx with
             bottom := s1.zoomCtx.bottom + dy
             left := s1.zoomCtx.left + (oldClick_opengl.1 - newClick_opengl.1) } }
  | EventState.DRAGGING_KEYS =>
    let translation : ℚ × ℚ :=
      ((newClick_opengl.1 - oldClick_opengl.1) * orientation.1,
       (newClick_opengl.2 - oldClick_opengl.2) * orientation.2)
    (dragSelectedKeys s1.curves orientation newClick_opengl translation
        s1.selectedKeyFrames s1.keyFrames).map fun keyFrames => { s1 with keyFrames := keyFrames }
  | EventState.NONE => some s1

/-- The key frame times of a curve view, in curve order. -/
def keyTimes (keyFrames : Nat → KeyFrame) (c : CurveGui) : List ℚ :=
  c.keys.map fun k => (keyFrames k).time

/-- The key frame times of a curve view are strictly increasing. -/
def StrictlyIncreasing (keyFrames : Nat → KeyFrame) (c : CurveGui) : Prop :=
  (keyTimes keyFrames c).Pairwise (· < ·)

/-- The hypothesis on one selection entry `it` under which a drag step keeps the key
frame times of the curve view `c` ordered: `it.1` is the address of a registered curve
view, `it.2` is one of its key frames, and a key frame of `c` is selected through a
curve view with the key frames of `c`. -/
def EntryWellFormed (curves : List CurveGui) (c : CurveGui) (it : Nat × Nat) : Prop :=
  ∃ c', curves.find? (fun d => d.ptr == it.1) = some c' ∧ it.2 ∈ c'.keys ∧
    (it.2 ∈ c.keys → c'.keys = c.keys)

/-- The value of `_mouseDragOrientation` after the first statement of
`CurveWidget::mouseMoveEvent`, the axis lock that the event applies: decided by this
event when `_mustSetDragOrientation` is set, the stored one otherwise.  `(1, 0)` is the
horizontal lock, `(0, 1)` the vertical one. -/
def axisLock (s : Widget) (x y : Int) : Int × Int :=
  if s.mustSetDragOrientation then
    if |x - s.zoomCtx.oldClick.1| > |y - s.zoomCtx.oldClick.2| then (1, 0) else (0, 1)
  else s.mouseDragOrientation

/-- A selection entry `it` names a registered curve view and one of its key frames. -/
def EntryRegistered (curves : List CurveGui) (it : Nat × Nat) : Prop :=
  ∃ c', curves.find? (fun d => d.ptr == it.1) = some c' ∧ it.2 ∈ c'.keys

/-- The zoom factor lies in `[0.01, 1024]`. -/
def ZoomInRange (z : ℚ) : Prop := 1 / 100 ≤ z ∧ z ≤ 1024

/-! ## Pointer press: selection -/

/-- The button of a mouse event, `event->button()`, as far as `mousePressEvent`
distinguishes buttons. -/
inductive MouseButton where
  | LeftButton
  | RightButton
  | MiddleButton
deriving DecidableEq, Repr

/-- The loop of `CurveWidget::isNearbyCurve` over `_curves`.  `getValueAt ptr x` is
`(*it)->evaluate(x)` for the curve view at address `ptr`: the interpolation of the class
`Curve`, which is outside the sources, is a parameter. -/
def isNearbyCurveLoop (s : Widget) (getValueAt : Nat → ℚ → ℚ) (pt : Int × Int) :
    List CurveGui → Option Nat
  | [] => none
  | it :: rest =>
    let openGL_pos := toScaleCoordinates s pt.1 pt.2
    if it.visible then
      let y := getValueAt it.ptr openGL_pos.1
      let yWidget := (toWidgetCoordinates s 0 y).2
      if |pt.2 - yWidget| < CLICK_DISTANCE_FROM_CURVE_ACCEPTANCE then some it.ptr
      else isNearbyCurveLoop s getValueAt pt rest
    else isNearbyCurveLoop s getValueAt pt rest

/-- `CurveWidget::isNearbyCurve(const QPoint& pt)`: the address of the curve view that
the returned iterator points to, `none` standing for `_curves.end()`. -/
def isNearbyCurve (s : Widget) (getValueAt : Nat → ℚ → ℚ) (pt : Int × Int) : Option Nat :=
  isNearbyCurveLoop s getValueAt pt s.curves

/-- `CurveWidget::selectCurve(CurveGui* curve)`: every registered curve view is
deselected, then the object at address `curve` is selected. -/
def selectCurve (s : Widget) (curve : Nat) : Widget :=
  let curves := s.curves.map fun it => { it with selected := false }
  { s with curves := curves.map fun c => if c.ptr = curve then { c with selected := true } else c }

/-- `CurveWidget::mousePressEvent`: `button` is `event->button()`, `altModifier` is
`event->modifiers().testFlag(Qt::AltModifier)`, `pos` is `event->pos()`.  The test
`selectedKey.second` holds when `isNearbyKeyFrame` found a key frame. -/
def mousePressEvent (s : Widget) (getValueAt : Nat → ℚ → ℚ) (button : MouseButton)
    (altModifier : Bool) (pos : Int × Int) : Widget :=
  let s := { s with mustSetDragOrientation := true }
  if button = MouseButton.RightButton then s
  else
    let s :=
      match isNearbyCurve s getValueAt pos with
      | some foundCurveNearby => selectCurve s foundCurveNearby
      | none => s
    let s := { s with selectedKeyFrames := [] }
    let s :=
      match isNearbyKeyFrame s pos with
      | some selectedKey =>
        { s with state := EventState.DRAGGING_KEYS
                 selectedKeyFrames := s.selectedKeyFrames ++ [selectedKey] }
      | none => s
    let s := { s with zoomCtx := { s.zoomCtx with oldClick := pos } }
    if button = MouseButton.MiddleButton ∨ altModifier = true then
      { s with state := EventState.DRAGGING_VIEW }
    else s

/-! ## Centering on a degenerate rectangle -/

/-- A `double` that may be infinite or not a number: the values that a division of two
finite doubles can have.  Rounding is left out, as everywhere, and a zero is `+0`. -/
inductive Double where
  | finite (q : ℚ)
  | posInf
  | negInf
  | nan
deriving DecidableEq

/-- The quotient `a / b` of two finite doubles in IEEE 754 arithmetic: a non-zero number
over zero is an infinity with the sign of the number, zero over zero is not a number. -/
def Double.div (a b : ℚ) : Double :=
  if b ≠ 0 then Double.finite (a / b)
  else if 0 < a then Double.posInf
  else if a < 0 then Double.negInf
  else Double.nan

/-- The comparison `a < b` of two doubles in IEEE 754 arithmetic: false when one of them
is not a number. -/
def Double.lt : Double → Double → Bool
  | Double.finite a, Double.finite b => decide (a < b)
  | Double.finite _, Double.posInf => true
  | Double.negInf, Double.finite _ => true
  | Double.negInf, Double.posInf => true
  | _, _ => false

/-- The three members of `_zoomCtx` that `centerOn` assigns. -/
structure CenteredView where
  left : ℚ
  bottom : ℚ
  zoomFactor : Double

/-- `CurveWidget::centerOn(double xmin, double xmax, double ymin, double ymax)` with the
divisions by `curveWidth` and `curveHeight` and the comparison in IEEE 754 arithmetic, for
a widget of positive width and height (so that `h / w` and `w / h` are finite). -/
def centerOnIEEE (s : Widget) (xmin xmax ymin ymax : ℚ) : CenteredView :=
  let curveWidth := xmax - xmin
  let curveHeight := ymax - ymin
  let w : ℚ := s.width
  let h : ℚ := s.height * ASPECT_RATIO
  if Double.lt (Double.div w h) (Double.div curveWidth curveHeight) then
    { left := xmin
      zoomFactor := Double.div w curveWidth
      bottom := (ymax + ymin) / 2 - ((h / w) * curveWidth / 2) }
  else
    { bottom := ymin
      zoomFactor := Double.div h curveHeight
      left := (xmax + xmin) / 2 - ((w / h) * curveHeight / 2) }

/-! ## Sample states -/

/-- A widget of 1000 x 1000 pixels with zoom factor 1, origin (0, 0) and no curve. -/
def sampleWidget : Widget :=
  { width := 1000
    height := 1000
    zoomCtx := { bottom := 0, left := 0, zoomFactor := 1, oldClick := (0, 0) }
    state := EventState.NONE
    nextCurveAddedColor := { hsvHue := 200, hsvSaturation := 255, value := 255 }
    curves := []
    selectedKeyFrames := []
    mustSetDragOrientation := false
    mouseDragOrientation := (0, 0)
    keyFrames := fun _ => { time := 0, value := 0 } }

/-- The curve A of the centring scenario: key frames at addresses 0 and 1. -/
def curveA : CurveGui :=
  { ptr := 100, keys := [0, 1]
    color := { hsvHue := 200, hsvSaturation := 255, value := 255 }
    thickness := 1, visible := true, selected := false }

/-- The sample widget with curve A registered; its key frames are (t=0, v=0) and
(t=10, v=5). -/
def scenarioWidget : Widget :=
  { sampleWidget with
    curves := [curveA]
    keyFrames := fun k => if k = 1 then { time := 10, value := 5 } else { time := 0, value := 0 } }

/-- The scenario widget with the key frame (t=10, v=5) of curve A selected. -/
def selectedScenarioWidget : Widget :=
  { scenarioWidget with selectedKeyFrames := [(100, 1)] }

/-- The scenario widget in the middle of a horizontal drag of the key frame (t=10, v=5),
the previous pointer position being the key frame's pixel (10, 950). -/
def draggingScenarioWidget : Widget :=
  { selectedScenarioWidget with
    state := EventState.DRAGGING_KEYS
    mouseDragOrientation := (1, 0)
    zoomCtx := { selectedScenarioWidget.zoomCtx with oldClick := (10, 950) } }

/-- The sample widget shrunk to 1 x 1 pixel. -/
def tinyWidget : Widget :=
  { sampleWidget with width := 1, height := 1 }

/-- The sample widget in the middle of a view pan, the previous pointer position being
the pixel (100, 200). -/
def panningWidget : Widget :=
  { sampleWidget with
    state := EventState.DRAGGING_VIEW
    zoomCtx := { sampleWidget.zoomCtx with oldClick := (100, 200) } }

theorem truncate_intCast (n : Int) : truncate (n : ℚ) = n := by
  unfold truncate
  split <;> simp

theorem truncate_sub_abs_lt (d : ℚ) : |(truncate d : ℚ) - d| < 1 := by
  unfold truncate
  split
  · rw [abs_lt]
    constructor
    · have := Int.lt_floor_add_one d
      linarith
    · have := Int.floor_le d
      linarith
  · rw [abs_lt]
    constructor
    · have := Int.le_ceil d
      linarith
    · have := Int.ceil_lt_add_one d
      linarith

/-! ## Auxiliary facts about the rounding to double -/

theorem roundHalfEven_sub_abs_le (q : ℚ) : |(roundHalfEven q : ℚ) - q| ≤ 1 / 2 := by
  unfold roundHalfEven
  have h1 := Int.floor_le q
  have h2 := Int.lt_floor_add_one q
  split_ifs with a b c
  · rw [abs_le]
    constructor <;> linarith
  · rw [abs_le]
    push_cast
    constructor <;> linarith
  · rw [abs_le]
    constructor <;> linarith
  · rw [abs_le]
    push_cast
    constructor <;> linarith

theorem roundHalfEven_eq_of (q : ℚ) (m : Int) (h : |q - m| < 1 / 2) : roundHalfEven q = m := by
  rw [abs_lt] at h
  have hle := roundHalfEven_sub_abs_le q
  rw [abs_le] at hle
  have h1 : ((roundHalfEven q - m : Int) : ℚ) < 1 := by
    push_cast
    linarith
  have h2 : (-1 : ℚ) < ((roundHalfEven q - m : Int) : ℚ) := by
    push_cast
    linarith
  have h3 : roundHalfEven q - m < 1 := by exact_mod_cast h1
  have h4 : -1 < roundHalfEven q - m := by exact_mod_cast h2
  omega

theorem log_two_eq_of (q : ℚ) (e : Int) (hlo : (2 : ℚ) ^ e ≤ |q|) (hhi : |q| < (2 : ℚ) ^ (e + 1)) :
    Int.log 2 |q| = e := by
  have hpos : (0 : ℚ) < |q| := lt_of_lt_of_le (by positivity) hlo
  have h1 : e ≤ Int.log 2 |q| :=
    (Int.zpow_le_iff_le_log (by norm_num) hpos).mp (by exact_mod_cast hlo)
  have h2 : Int.log 2 |q| < e + 1 :=
    (Int.lt_zpow_iff_log_lt (by norm_num) hpos).mp (by exact_mod_cast hhi)
  omega

/-- Evaluation of `roundDouble`: for `2^e ≤ |q| < 2^(e+1)` and an integer `m` within 1/2
of `q * 2^(52-e)`, the result is `m * 2^(e-52)`. -/
theorem roundDouble_eq_of (q : ℚ) (e m : Int) (hlo : (2 : ℚ) ^ e ≤ |q|)
    (hhi : |q| < (2 : ℚ) ^ (e + 1)) (hm : |q * 2 ^ (52 - e) - m| < 1 / 2) :
    roundDouble q = m * 2 ^ (e - 52) := by
  have hpos : (0 : ℚ) < |q| := lt_of_lt_of_le (by positivity) hlo
  have hq : q ≠ 0 := abs_pos.mp hpos
  simp only [roundDouble, if_neg hq, log_two_eq_of q e hlo hhi, roundHalfEven_eq_of _ m hm]

/-- The relative error of a rounding is at most `2^-53`. -/
theorem roundDouble_sub_abs_le (q : ℚ) : |roundDouble q - q| ≤ |q| / 2 ^ 53 := by
  by_cases hq : q = 0
  · simp [roundDouble, hq]
  · have hpos : (0 : ℚ) < |q| := abs_pos.mpr hq
    have hlo : (2 : ℚ) ^ Int.log 2 |q| ≤ |q| := by
      have := Int.zpow_log_le_self (b := 2) (r := |q|) (by norm_num) hpos
      exact_mod_cast this
    simp only [roundDouble, if_neg hq]
    set e := Int.log 2 |q| with he
    have hs : (0 : ℚ) < 2 ^ (52 - e) := by positivity
    have hr := roundHalfEven_sub_abs_le (q * 2 ^ (52 - e))
    have hinv : (2 : ℚ) ^ (e - 52) * 2 ^ (52 - e) = 1 := by
      rw [← zpow_add₀ (by norm_num : (2 : ℚ) ≠ 0)]
      simp
    have e1 : (roundHalfEven (q * 2 ^ (52 - e)) : ℚ) * 2 ^ (e - 52) - q
        = ((roundHalfEven (q * 2 ^ (52 - e)) : ℚ) - q * 2 ^ (52 - e)) * 2 ^ (e - 52) := by
      have : q * 2 ^ (52 - e) * 2 ^ (e - 52) = q := by
        rw [mul_assoc, mul_comm ((2 : ℚ) ^ (52 - e)), hinv, mul_one]
      linarith [this]
    rw [e1, abs_mul, abs_of_pos (by positivity : (0 : ℚ) < 2 ^ (e - 52))]
    have e2 : (2 : ℚ) ^ (e - 52) = 2 ^ e / 2 ^ 52 := by
      rw [zpow_sub₀ (by norm_num : (2 : ℚ) ≠ 0)]
      norm_num
    rw [e2]
    have h52 : (0 : ℚ) < 2 ^ 52 := by positivity
    calc |(roundHalfEven (q * 2 ^ (52 - e)) : ℚ) - q * 2 ^ (52 - e)| * (2 ^ e / 2 ^ 52)
        ≤ 1 / 2 * (2 ^ e / 2 ^ 52) := by
          apply mul_le_mul_of_nonneg_right hr
          positivity
      _ = 2 ^ e / 2 ^ 53 := by ring
      _ ≤ |q| / 2 ^ 53 := by
          apply div_le_div_of_nonneg_right hlo
          positivity

theorem truncate_eq_of_nonneg (d : ℚ) (n : Int) (h0 : 0 ≤ d) (h1 : (n : ℚ) ≤ d)
    (h2 : d < n + 1) : truncate d = n := by
  rw [truncate, if_pos h0, Int.floor_eq_iff]
  exact ⟨h1, h2⟩

theorem truncate_eq_of_neg (d : ℚ) (n : Int) (h0 : d < 0) (h1 : (n : ℚ) - 1 < d)
    (h2 : d ≤ n) : truncate d = n := by
  rw [truncate, if_neg (not_le.mpr h0), Int.ceil_eq_iff]
  exact ⟨h1, h2⟩

theorem toInt_eq_of (d : ℚ) (n : Int) (hn : truncate d = n) (hlo : -2147483648 ≤ n)
    (hhi : n ≤ 2147483647) : toInt d = n := by
  rw [toInt, hn, if_pos ⟨hlo, hhi⟩]

/-- The error of a quotient scaled to the widget: for a numerator `a` near `A`, a
denominator `d` near `D`, the rounded quotient `r` of `a / d` and the rounded product
`v` of `r * s`. -/
theorem projection_error (A D a d r v s u ε α η : ℚ) (hD : D ≠ 0) (hs : 0 ≤ s)
    (hu : 0 ≤ u) (hu1 : u ≤ 1 / 8) (hε : 0 ≤ ε) (hα : 0 ≤ α) (hη : 0 ≤ η) (hη1 : η ≤ 1 / 4)
    (ha : |a - A| ≤ ε * |A| + α) (hd : |d - D| ≤ η * |D|)
    (hr : |r - a / d| ≤ u * |a / d|) (hv : |v - r * s| ≤ u * |r * s|) :
    |v - A / D * s| ≤ (3 * u + 2 * (ε + η)) * |A / D * s| + 2 * (α / |D|) * s := by
  have hu2 : u * u ≤ 1 / 8 * u := mul_le_mul_of_nonneg_right hu1 hu
  have c1 : (1 + u) * (1 + u) * (4 / 3) ≤ 2 := by linarith
  have c2 : 2 * u + u * u ≤ 3 * u := by linarith
  have hDpos : 0 < |D| := abs_pos.mpr hD
  -- the denominator keeps three quarters of its size
  have hdlow : 3 / 4 * |D| ≤ |d| := by
    have h1 : |D| - |d| ≤ |d - D| := by
      rw [abs_sub_comm d D]
      exact abs_sub_abs_le_abs_sub D d
    have h2 : η * |D| ≤ 1 / 4 * |D| := mul_le_mul_of_nonneg_right hη1 hDpos.le
    linarith
  have hdpos : 0 < |d| := by linarith
  have hd0 : d ≠ 0 := abs_pos.mp hdpos
  set P := A / D with hP
  have hPD : P * D = A := by
    rw [hP]
    field_simp
  have hAabs : |A| = |P| * |D| := by rw [← hPD, abs_mul]
  -- the quotient
  have hq : |a / d - P| ≤ 4 / 3 * ((ε + η) * |P| + α / |D|) := by
    have e : (a / d - P) * d = (a - A) - P * (d - D) := by
      field_simp
      rw [← hPD]
      ring
    have h1 : |a / d - P| * |d| ≤ (ε + η) * |P| * |D| + α := by
      rw [← abs_mul, e]
      calc |(a - A) - P * (d - D)| ≤ |a - A| + |P * (d - D)| := abs_sub _ _
        _ ≤ (ε * |A| + α) + |P| * (η * |D|) := by
            rw [abs_mul]
            exact add_le_add ha (mul_le_mul_of_nonneg_left hd (abs_nonneg _))
        _ = (ε + η) * |P| * |D| + α := by
            rw [hAabs]
            ring
    have h2 : |a / d - P| * (3 / 4 * |D|) ≤ (ε + η) * |P| * |D| + α :=
      le_trans (mul_le_mul_of_nonneg_left hdlow (abs_nonneg _)) h1
    have h3 : |a / d - P| ≤ ((ε + η) * |P| * |D| + α) / (3 / 4 * |D|) := by
      rw [le_div_iff₀ (by positivity)]
      exact h2
    have h4 : ((ε + η) * |P| * |D| + α) / (3 / 4 * |D|)
        = 4 / 3 * ((ε + η) * |P| + α / |D|) := by
      field_simp
      ring
    rw [h4] at h3
    exact h3
  set e1 := 4 / 3 * ((ε + η) * |P| + α / |D|) with he1
  have he1nn : 0 ≤ e1 := by positivity
  have hadabs : |a / d| ≤ |P| + e1 := by
    have := abs_sub_abs_le_abs_sub (a / d) P
    linarith
  have hrP : |r - P| ≤ u * (|P| + e1) + e1 := by
    calc |r - P| = |(r - a / d) + (a / d - P)| := by ring_nf
      _ ≤ |r - a / d| + |a / d - P| := abs_add _ _
      _ ≤ u * |a / d| + e1 := add_le_add hr hq
      _ ≤ u * (|P| + e1) + e1 := by
          have := mul_le_mul_of_nonneg_left hadabs hu
          linarith
  set e2 := u * (|P| + e1) + e1 with he2
  have hrabs : |r| ≤ |P| + e2 := by
    have := abs_sub_abs_le_abs_sub r P
    linarith
  have hvP : |v - P * s| ≤ u * ((|P| + e2) * s) + e2 * s := by
    calc |v - P * s| = |(v - r * s) + (r - P) * s| := by ring_nf
      _ ≤ |v - r * s| + |(r - P) * s| := abs_add _ _
      _ ≤ u * |r * s| + |r - P| * s := by
          rw [abs_mul (r - P) s, abs_of_nonneg hs]
          exact add_le_add_right hv _
      _ ≤ u * ((|P| + e2) * s) + e2 * s := by
          rw [abs_mul r s, abs_of_nonneg hs]
          have h1 := mul_le_mul_of_nonneg_right hrabs hs
          have h2 := mul_le_mul_of_nonneg_left h1 hu
          have h3 := mul_le_mul_of_nonneg_right hrP hs
          linarith
  have hPs : |P * s| = |P| * s := by rw [abs_mul, abs_of_nonneg hs]
  rw [hPs]
  -- collect the terms
  have hPnn : 0 ≤ |P| := abs_nonneg _
  have hβ : 0 ≤ α / |D| := by positivity
  have hX : 0 ≤ (ε + η) * |P| + α / |D| := by positivity
  have hXs : 0 ≤ ((ε + η) * |P| + α / |D|) * s := mul_nonneg hX hs
  have hPsnn : 0 ≤ |P| * s := mul_nonneg hPnn hs
  have key : u * ((|P| + e2) * s) + e2 * s
      ≤ (3 * u + 2 * (ε + η)) * (|P| * s) + 2 * (α / |D|) * s := by
    have expand : u * ((|P| + e2) * s) + e2 * s
        = (2 * u + u * u) * (|P| * s)
          + (1 + u) * (1 + u) * (4 / 3) * (((ε + η) * |P| + α / |D|) * s) := by
      rw [he2, he1]
      ring
    rw [expand]
    have t1 : (2 * u + u * u) * (|P| * s) ≤ 3 * u * (|P| * s) :=
      mul_le_mul_of_nonneg_right c2 hPsnn
    have t2 : (1 + u) * (1 + u) * (4 / 3) * (((ε + η) * |P| + α / |D|) * s)
        ≤ 2 * (((ε + η) * |P| + α / |D|) * s) :=
      mul_le_mul_of_nonneg_right c1 hXs
    have t3 : 2 * (((ε + η) * |P| + α / |D|) * s)
        = 2 * (ε + η) * (|P| * s) + 2 * (α / |D|) * s := by ring
    have t4 : (3 * u + 2 * (ε + η)) * (|P| * s)
        = 3 * u * (|P| * s) + 2 * (ε + η) * (|P| * s) := by ring
    rw [t4]
    linarith
  exact le_trans hvP key

/-- The computed width `d` of the visible range, `right - left` in doubles, is within
`2^-36` of the exact width `W`, for an origin within 65536 widths of 0. -/
theorem visible_width_error (W L q R d : ℚ) (hW : 0 < W) (hL : |L| ≤ 65536 * W)
    (hq : |q - W| ≤ |W| / 2 ^ 53) (hR : |R - (L + q)| ≤ |L + q| / 2 ^ 53)
    (hd : |d - (R - L)| ≤ |R - L| / 2 ^ 53) :
    |d - W| ≤ 1 / 2 ^ 36 * |W| := by
  rw [abs_of_pos hW] at hq ⊢
  have hq' := abs_le.mp hq
  have hLq : |L + q| ≤ 65536 * W + (W + W / 2 ^ 53) := by
    calc |L + q| ≤ |L| + |q| := abs_add _ _
      _ ≤ 65536 * W + (W + W / 2 ^ 53) := by
          have : |q| ≤ W + W / 2 ^ 53 := by
            rw [abs_le]
            constructor <;> linarith [hq'.1, hq'.2]
          linarith
  have hR1 : |R - (L + q)| ≤ (65536 * W + (W + W / 2 ^ 53)) / 2 ^ 53 :=
    le_trans hR (div_le_div_of_nonneg_right hLq (by positivity))
  have hR' := abs_le.mp hR1
  have hRL : |R - L| ≤ W + W / 2 ^ 53 + (65536 * W + (W + W / 2 ^ 53)) / 2 ^ 53 := by
    rw [abs_le]
    constructor <;> linarith [hq'.1, hq'.2, hR'.1, hR'.2]
  have hd1 : |d - (R - L)|
      ≤ (W + W / 2 ^ 53 + (65536 * W + (W + W / 2 ^ 53)) / 2 ^ 53) / 2 ^ 53 :=
    le_trans hd (div_le_div_of_nonneg_right hRL (by positivity))
  have hd' := abs_le.mp hd1
  rw [abs_le]
  constructor <;> linarith [hq'.1, hq'.2, hR'.1, hR'.2, hd'.1, hd'.2]

/-- The computed top edge `T`, `bottom + h / z * ASPECT_RATIO` in doubles, is within
`2^-36` heights of the exact top edge, for an origin within 65536 heights of 0. -/
theorem visible_top_error (G B t1 c t2 T : ℚ) (hG : 0 < G) (hB : |B| ≤ 65536 * (G * (1 / 10)))
    (ht1 : |t1 - G| ≤ |G| / 2 ^ 53) (hc : |c - 1 / 10| ≤ |(1 / 10 : ℚ)| / 2 ^ 53)
    (ht2 : |t2 - t1 * c| ≤ |t1 * c| / 2 ^ 53) (hT : |T - (B + t2)| ≤ |B + t2| / 2 ^ 53) :
    |T - (B + G * (1 / 10))| ≤ 1 / 2 ^ 36 * (G * (1 / 10)) := by
  rw [abs_of_pos hG] at ht1
  rw [abs_of_pos (by norm_num : (0 : ℚ) < 1 / 10)] at hc
  have ht1' := abs_le.mp ht1
  have hc' := abs_le.mp hc
  have hcabs : |c| ≤ 1 / 10 + 1 / 10 / 2 ^ 53 := by
    rw [abs_le]
    constructor <;> linarith [hc'.1, hc'.2]
  -- the product before rounding
  have hprod : |t1 * c - G * (1 / 10)| ≤ 3 * (G * (1 / 10)) / 2 ^ 53 := by
    have e : t1 * c - G * (1 / 10) = (t1 - G) * c + G * (c - 1 / 10) := by ring
    rw [e]
    calc |(t1 - G) * c + G * (c - 1 / 10)| ≤ |(t1 - G) * c| + |G * (c - 1 / 10)| := abs_add _ _
      _ = |t1 - G| * |c| + G * |c - 1 / 10| := by
          rw [abs_mul, abs_mul, abs_of_pos hG]
      _ ≤ G / 2 ^ 53 * (1 / 10 + 1 / 10 / 2 ^ 53) + G * (1 / 10 / 2 ^ 53) := by
          apply add_le_add
          · exact mul_le_mul ht1 hcabs (abs_nonneg _) (by positivity)
          · exact mul_le_mul_of_nonneg_left hc hG.le
      _ ≤ 3 * (G * (1 / 10)) / 2 ^ 53 := by
          have : 0 ≤ G := hG.le
          linarith
  have hprod' := abs_le.mp hprod
  have hprodabs : |t1 * c| ≤ G * (1 / 10) + 3 * (G * (1 / 10)) / 2 ^ 53 := by
    rw [abs_le]
    constructor <;> linarith [hprod'.1, hprod'.2]
  have ht2a : |t2 - t1 * c| ≤ (G * (1 / 10) + 3 * (G * (1 / 10)) / 2 ^ 53) / 2 ^ 53 :=
    le_trans ht2 (div_le_div_of_nonneg_right hprodabs (by positivity))
  have ht2' := abs_le.mp ht2a
  have ht2abs : |t2| ≤ 2 * (G * (1 / 10)) := by
    rw [abs_le]
    constructor <;> linarith [hprod'.1, hprod'.2, ht2'.1, ht2'.2]
  have hBt : |B + t2| ≤ 65536 * (G * (1 / 10)) + 2 * (G * (1 / 10)) :=
    le_trans (abs_add _ _) (add_le_add hB ht2abs)
  have hTa : |T - (B + t2)| ≤ (65536 * (G * (1 / 10)) + 2 * (G * (1 / 10))) / 2 ^ 53 :=
    le_trans hT (div_le_div_of_nonneg_right hBt (by positivity))
  have hT' := abs_le.mp hTa
  rw [abs_le]
  constructor <;> linarith [hprod'.1, hprod'.2, ht2'.1, ht2'.2, hT'.1, hT'.2]

/-- The error of `toScaleCoordinates` in doubles, for one coordinate: the computed extent
`d` near the exact extent `D`, the pixel `n`, the widget size `s`, the computed edge `O`,
the rounded product `m2` of `d * n`, the rounded quotient `m3` of `m2 / s` and the rounded
sum `c` of `m3 + O`. -/
theorem scale_error (D d n s O m2 m3 c : ℚ) (hs : 0 < s)
    (hd : |d - D| ≤ 1 / 2 ^ 34 * |D|)
    (hm2 : |m2 - d * n| ≤ |d * n| / 2 ^ 53) (hm3 : |m3 - m2 / s| ≤ |m2 / s| / 2 ^ 53)
    (hc : |c - (m3 + O)| ≤ |m3 + O| / 2 ^ 53) :
    |c - (O + D * n / s)|
      ≤ 1 / 2 ^ 53 * (2 * (|D| * |n| / s) + |O|) + 1 / 2 ^ 32 * (|D| * |n| / s) := by
  have hDn : 0 ≤ |D| * |n| := mul_nonneg (abs_nonneg _) (abs_nonneg _)
  have hP : 0 ≤ |D| * |n| / s := div_nonneg hDn hs.le
  have hdabs : |d| ≤ |D| + 1 / 2 ^ 34 * |D| := by
    have := abs_sub_abs_le_abs_sub d D
    linarith
  have hdn : |d * n| ≤ (1 + 1 / 2 ^ 34) * (|D| * |n|) := by
    rw [abs_mul]
    have := mul_le_mul_of_nonneg_right hdabs (abs_nonneg n)
    linarith
  have h1 : |m2 - D * n| ≤ (1 / 2 ^ 53 * (1 + 1 / 2 ^ 34) + 1 / 2 ^ 34) * (|D| * |n|) := by
    have e : m2 - D * n = (m2 - d * n) + (d - D) * n := by ring
    rw [e]
    have t1 := abs_add (m2 - d * n) ((d - D) * n)
    have t2 : |(d - D) * n| ≤ 1 / 2 ^ 34 * |D| * |n| := by
      rw [abs_mul]
      exact mul_le_mul_of_nonneg_right hd (abs_nonneg n)
    have t3 : |d * n| / 2 ^ 53 ≤ (1 + 1 / 2 ^ 34) * (|D| * |n|) / 2 ^ 53 :=
      div_le_div_of_nonneg_right hdn (by positivity)
    linarith
  have h2 : |m2 / s - D * n / s|
      ≤ (1 / 2 ^ 53 * (1 + 1 / 2 ^ 34) + 1 / 2 ^ 34) * (|D| * |n| / s) := by
    rw [← sub_div, abs_div, abs_of_pos hs, ← mul_div_assoc]
    exact div_le_div_of_nonneg_right h1 hs.le
  have hDns : |D * n / s| = |D| * |n| / s := by
    rw [abs_div, abs_mul, abs_of_pos hs]
  have h3 : |m2 / s| ≤ 2 * (|D| * |n| / s) := by
    have := abs_sub_abs_le_abs_sub (m2 / s) (D * n / s)
    rw [hDns] at this
    have c1 : (1 / 2 ^ 53 * (1 + 1 / 2 ^ 34) + 1 / 2 ^ 34) * (|D| * |n| / s)
        ≤ 1 * (|D| * |n| / s) := mul_le_mul_of_nonneg_right (by norm_num) hP
    linarith
  have h4 : |m3 - D * n / s| ≤ 1 / 2 ^ 33 * (|D| * |n| / s) := by
    have e : m3 - D * n / s = (m3 - m2 / s) + (m2 / s - D * n / s) := by ring
    rw [e]
    have t1 := abs_add (m3 - m2 / s) (m2 / s - D * n / s)
    have t2 : |m2 / s| / 2 ^ 53 ≤ 2 * (|D| * |n| / s) / 2 ^ 53 :=
      div_le_div_of_nonneg_right h3 (by positivity)
    have c1 : (1 / 2 ^ 53 * (1 + 1 / 2 ^ 34) + 1 / 2 ^ 34) * (|D| * |n| / s)
        + 2 * (|D| * |n| / s) / 2 ^ 53 ≤ 1 / 2 ^ 33 * (|D| * |n| / s) := by
      have : (1 / 2 ^ 53 * (1 + 1 / 2 ^ 34) + 1 / 2 ^ 34 + 2 / 2 ^ 53) * (|D| * |n| / s)
          ≤ 1 / 2 ^ 33 * (|D| * |n| / s) := mul_le_mul_of_nonneg_right (by norm_num) hP
      linarith
    linarith
  have h5 : |m3| ≤ 2 * (|D| * |n| / s) := by
    have := abs_sub_abs_le_abs_sub m3 (D * n / s)
    rw [hDns] at this
    have c1 : 1 / 2 ^ 33 * (|D| * |n| / s) ≤ 1 * (|D| * |n| / s) :=
      mul_le_mul_of_nonneg_right (by norm_num) hP
    linarith
  have h6 : |m3 + O| ≤ 2 * (|D| * |n| / s) + |O| :=
    le_trans (abs_add _ _) (add_le_add_right h5 _)
  have h7 : |c - (m3 + O)| ≤ (2 * (|D| * |n| / s) + |O|) / 2 ^ 53 :=
    le_trans hc (div_le_div_of_nonneg_right h6 (by positivity))
  have e : c - (O + D * n / s) = (c - (m3 + O)) + (m3 - D * n / s) := by ring
  rw [e]
  have t1 := abs_add (c - (m3 + O)) (m3 - D * n / s)
  have c2 : 1 / 2 ^ 33 * (|D| * |n| / s) ≤ 1 / 2 ^ 32 * (|D| * |n| / s) :=
    mul_le_mul_of_nonneg_right (by norm_num) hP
  linarith

/-! ## Auxiliary facts about the linear maps -/

/-- The bounding box of curve A in the scenario widget is `[0, 10] x [0, 5]`. -/
theorem curvesBoundingBox_scenario :
    curvesBoundingBox scenarioWidget [curveA]
      = { left := 0, bottom := 0, right := 10, top := 5, null := false } := by
  simp [curvesBoundingBox, RectD.merge, RectD.default, getMinimumTimeCovered,
    getMaximumTimeCovered, valueRange, scenarioWidget, sampleWidget, curveA, INT_MAX, INT_MIN]

/-- The four edges after `addMargins`, in terms of the edges before. -/
theorem addMargins_edges (ret : RectD) :
    (addMargins ret).left = ret.left - (ret.right - ret.left) / 10 ∧
    (addMargins ret).right
      = ret.right + (ret.right - ret.left) / 10 + (ret.right - ret.left) / 100 ∧
    (addMargins ret).bottom = ret.bottom - (ret.top - ret.bottom) / 10 ∧
    (addMargins ret).top
      = ret.top + (ret.top - ret.bottom) / 10 + (ret.top - ret.bottom) / 100 := by
  simp only [addMargins, RectD.width, RectD.height]
  refine ⟨trivial, ?_, trivial, ?_⟩ <;> ring

/-- The arguments of the inner `centerOn` call for curve A in the scenario widget. -/
theorem centerOnCurvesArgs_scenario :
    centerOnCurvesArgs scenarioWidget [curveA] = (-1, 111 / 10, -1 / 2, 111 / 20) := by
  have h := addMargins_edges (curvesBoundingBox scenarioWidget [curveA])
  rw [curvesBoundingBox_scenario] at h
  obtain ⟨h1, h2, h3, h4⟩ := h
  simp only [centerOnCurvesArgs, curvesBoundingBox_scenario, h1, h2, h3, h4]
  norm_num

/-! ## Auxiliary facts about the hit test -/

theorem keyFrameAccepted_iff (s : Widget) (pt : Int × Int) (k : Nat) :
    keyFrameAccepted s pt k = true ↔
      |pt.1 - (toWidgetCoordinates s (s.keyFrames k).time (s.keyFrames k).value).1| < 5 ∧
      |pt.2 - (toWidgetCoordinates s (s.keyFrames k).time (s.keyFrames k).value).2| < 5 := by
  simp only [keyFrameAccepted, CLICK_DISTANCE_FROM_CURVE_ACCEPTANCE, Bool.and_eq_true,
    decide_eq_true_eq]
  exact And.comm

theorem isNearbyKeyFrameKeys_eq_find (s : Widget) (pt : Int × Int) (curve : Nat)
    (keys : List Nat) :
    isNearbyKeyFrameKeys s pt curve keys
      = (keys.map fun k => (curve, k)).find? (fun e => keyFrameAccepted s pt e.2) := by
  induction keys with
  | nil => rfl
  | cons k ks ih =>
    simp only [isNearbyKeyFrameKeys, List.map_cons, List.find?_cons]
    cases h : keyFrameAccepted s pt k
    · simpa using ih
    · simp

theorem isNearbyKeyFrameCurves_eq_find (s : Widget) (pt : Int × Int) (curves : List CurveGui) :
    isNearbyKeyFrameCurves s pt curves
      = ((curves.filter fun c => c.visible).flatMap fun c => c.keys.map fun k => (c.ptr, k)).find?
          (fun e => keyFrameAccepted s pt e.2) := by
  induction curves with
  | nil => rfl
  | cons c cs ih =>
    simp only [isNearbyKeyFrameCurves, List.filter_cons]
    cases hv : c.visible
    · simpa using ih
    · simp only [if_true, List.flatMap_cons, List.find?_append,
        ← isNearbyKeyFrameKeys_eq_find, ← ih]
      cases isNearbyKeyFrameKeys s pt c.ptr c.keys <;> rfl

/-- The projected pixel positions of the two key frames of curve A in the scenario
widget: (0, 1000) and (10, 950). -/
theorem scenario_projections :
    toWidgetCoordinates scenarioWidget (scenarioWidget.keyFrames 0).time
      (scenarioWidget.keyFrames 0).value = (0, 1000) ∧
    toWidgetCoordinates scenarioWidget (scenarioWidget.keyFrames 1).time
      (scenarioWidget.keyFrames 1).value = (10, 950) := by
  have r1 : roundDouble (1000 : ℚ) = (1000 : ℚ) := by
    rw [roundDouble_eq_of (1000 : ℚ) 9 8796093022208000
      (by rw [abs_of_pos (by norm_num)]; norm_num)
      (by rw [abs_of_pos (by norm_num)]; norm_num)
      (by rw [abs_lt]; constructor <;> norm_num)]
    norm_num
  have r2 : roundDouble (1 / 10 : ℚ) = (3602879701896397 / 36028797018963968 : ℚ) := by
    rw [roundDouble_eq_of (1 / 10 : ℚ) (-4) 7205759403792794
      (by rw [abs_of_pos (by norm_num)]; norm_num)
      (by rw [abs_of_pos (by norm_num)]; norm_num)
      (by rw [abs_lt]; constructor <;> norm_num)]
    norm_num
  have r3 : roundDouble (450359962737049625 / 4503599627370496 : ℚ) = (100 : ℚ) := by
    rw [roundDouble_eq_of (450359962737049625 / 4503599627370496 : ℚ) 6 7036874417766400
      (by rw [abs_of_pos (by norm_num)]; norm_num)
      (by rw [abs_of_pos (by norm_num)]; norm_num)
      (by rw [abs_lt]; constructor <;> norm_num)]
    norm_num
  have r4 : roundDouble (100 : ℚ) = (100 : ℚ) := by
    rw [roundDouble_eq_of (100 : ℚ) 6 7036874417766400
      (by rw [abs_of_pos (by norm_num)]; norm_num)
      (by rw [abs_of_pos (by norm_num)]; norm_num)
      (by rw [abs_lt]; constructor <;> norm_num)]
    norm_num
  have r5 : roundDouble (0 : ℚ) = 0 := by simp [roundDouble]
  have r6 : roundDouble (-100 : ℚ) = (-100 : ℚ) := by
    rw [roundDouble_eq_of (-100 : ℚ) 6 (-7036874417766400)
      (by rw [abs_of_neg (by norm_num)]; norm_num)
      (by rw [abs_of_neg (by norm_num)]; norm_num)
      (by rw [abs_lt]; constructor <;> norm_num)]
    norm_num
  have r7 : roundDouble (1 : ℚ) = (1 : ℚ) := by
    rw [roundDouble_eq_of (1 : ℚ) 0 4503599627370496
      (by rw [abs_of_pos (by norm_num)]; norm_num)
      (by rw [abs_of_pos (by norm_num)]; norm_num)
      (by rw [abs_lt]; constructor <;> norm_num)]
    norm_num
  have r8 : roundDouble (10 : ℚ) = (10 : ℚ) := by
    rw [roundDouble_eq_of (10 : ℚ) 3 5629499534213120
      (by rw [abs_of_pos (by norm_num)]; norm_num)
      (by rw [abs_of_pos (by norm_num)]; norm_num)
      (by rw [abs_lt]; constructor <;> norm_num)]
    norm_num
  have r9 : roundDouble (1 / 100 : ℚ) = (5764607523034235 / 576460752303423488 : ℚ) := by
    rw [roundDouble_eq_of (1 / 100 : ℚ) (-7) 5764607523034235
      (by rw [abs_of_pos (by norm_num)]; norm_num)
      (by rw [abs_of_pos (by norm_num)]; norm_num)
      (by rw [abs_lt]; constructor <;> norm_num)]
    norm_num
  have r10 : roundDouble (720575940379279375 / 72057594037927936 : ℚ) = (10 : ℚ) := by
    rw [roundDouble_eq_of (720575940379279375 / 72057594037927936 : ℚ) 3 5629499534213120
      (by rw [abs_of_pos (by norm_num)]; norm_num)
      (by rw [abs_of_pos (by norm_num)]; norm_num)
      (by rw [abs_lt]; constructor <;> norm_num)]
    norm_num
  have r11 : roundDouble (-95 : ℚ) = (-95 : ℚ) := by
    rw [roundDouble_eq_of (-95 : ℚ) 6 (-6685030696878080)
      (by rw [abs_of_neg (by norm_num)]; norm_num)
      (by rw [abs_of_neg (by norm_num)]; norm_num)
      (by rw [abs_lt]; constructor <;> norm_num)]
    norm_num
  have r12 : roundDouble (19 / 20 : ℚ) = (4278419646001971 / 4503599627370496 : ℚ) := by
    rw [roundDouble_eq_of (19 / 20 : ℚ) (-1) 8556839292003942
      (by rw [abs_of_pos (by norm_num)]; norm_num)
      (by rw [abs_of_pos (by norm_num)]; norm_num)
      (by rw [abs_lt]; constructor <;> norm_num)]
    norm_num
  have r13 : roundDouble (534802455750246375 / 562949953421312 : ℚ) = (950 : ℚ) := by
    rw [roundDouble_eq_of (534802455750246375 / 562949953421312 : ℚ) 9 8356288371097600
      (by rw [abs_of_pos (by norm_num)]; norm_num)
      (by rw [abs_of_pos (by norm_num)]; norm_num)
      (by rw [abs_lt]; constructor <;> norm_num)]
    norm_num
  have t1 : toInt (0 : ℚ) = 0 :=
    toInt_eq_of _ _ (truncate_eq_of_nonneg _ 0 (by norm_num) (by norm_num) (by norm_num))
      (by norm_num) (by norm_num)
  have t2 : toInt (1000 : ℚ) = 1000 :=
    toInt_eq_of _ _ (truncate_eq_of_nonneg _ 1000 (by norm_num) (by norm_num) (by norm_num))
      (by norm_num) (by norm_num)
  have t3 : toInt (10 : ℚ) = 10 :=
    toInt_eq_of _ _ (truncate_eq_of_nonneg _ 10 (by norm_num) (by norm_num) (by norm_num))
      (by norm_num) (by norm_num)
  have t4 : toInt (950 : ℚ) = 950 :=
    toInt_eq_of _ _ (truncate_eq_of_nonneg _ 950 (by norm_num) (by norm_num) (by norm_num))
      (by norm_num) (by norm_num)
  constructor
  · simp only [toWidgetCoordinates, scenarioWidget, sampleWidget, ASPECT_RATIO]
    norm_num [r1, r2, r3, r4, r5, r6, r7, r8, r9, r10, r11, r12, r13, t1, t2, t3, t4]
  · simp only [toWidgetCoordinates, scenarioWidget, sampleWidget, ASPECT_RATIO]
    norm_num [r1, r2, r3, r4, r5, r6, r7, r8, r9, r10, r11, r12, r13, t1, t2, t3, t4]

/-! ## Auxiliary facts about the curve registry -/

theorem eraseSelectedKey_eq_filter (selected : List (Nat × Nat)) (key : Nat)
    (hu : (selected.map Prod.snd).Nodup) :
    eraseSelectedKey selected key = selected.filter (fun e => decide (e.2 ≠ key)) := by
  induction selected with
  | nil => rfl
  | cons e es ih =>
    rw [List.map_cons, List.nodup_cons] at hu
    by_cases h : e.2 = key
    · have hes : es.filter (fun e => decide (e.2 ≠ key)) = es := by
        rw [List.filter_eq_self]
        intro x hx
        have : x.2 ≠ key := by
          intro hxk
          exact hu.1 (h ▸ hxk ▸ List.mem_map_of_mem Prod.snd hx)
        simpa using this
      rw [eraseSelectedKey, if_pos h, List.filter_cons, if_neg (by simpa using h), hes]
    · simp [eraseSelectedKey, h, List.filter_cons, ih hu.2]

theorem nodup_snd_filter (selected : List (Nat × Nat)) (p : Nat × Nat → Bool)
    (hu : (selected.map Prod.snd).Nodup) : ((selected.filter p).map Prod.snd).Nodup :=
  (List.filter_sublist selected).map Prod.snd |>.nodup hu

theorem foldl_eraseSelectedKey_eq_filter (keys : List Nat) (selected : List (Nat × Nat))
    (hu : (selected.map Prod.snd).Nodup) :
    keys.foldl eraseSelectedKey selected = selected.filter (fun e => decide (e.2 ∉ keys)) := by
  induction keys generalizing selected with
  | nil => simp
  | cons k ks ih =>
    rw [List.foldl_cons, eraseSelectedKey_eq_filter selected k hu,
      ih _ (nodup_snd_filter selected _ hu), List.filter_filter]
    congr 1
    funext e
    simp only [List.mem_cons, not_or, Bool.decide_and, Bool.and_comm]

theorem removeCurveLoop_absent (curve : Nat) (selected : List (Nat × Nat))
    (curves : List CurveGui) (h : ∀ c ∈ curves, c.ptr ≠ curve) :
    removeCurveLoop curve selected curves = (curves, selected) := by
  induction curves with
  | nil => rfl
  | cons c cs ih =>
    have hc : c.ptr ≠ curve := h c (List.mem_cons_self _ _)
    have ih' := ih fun c' hc' => h c' (List.mem_cons_of_mem _ hc')
    simp [removeCurveLoop, hc, ih']

theorem removeCurveLoop_registered (c : CurveGui) (selected : List (Nat × Nat))
    (curves : List CurveGui) (hc : c ∈ curves) (hp : (curves.map CurveGui.ptr).Nodup) :
    removeCurveLoop c.ptr selected curves
      = (curves.filter (fun c' => decide (c'.ptr ≠ c.ptr)),
         c.keys.foldl eraseSelectedKey selected) := by
  induction curves with
  | nil => cases hc
  | cons d ds ih =>
    rw [List.map_cons, List.nodup_cons] at hp
    by_cases hd : d.ptr = c.ptr
    · have hcd : c = d := by
        rcases List.mem_cons.mp hc with h | h
        · exact h
        · exact absurd (hd ▸ List.mem_map_of_mem CurveGui.ptr h) hp.1
      subst hcd
      have hds : ds.filter (fun c' => decide (c'.ptr ≠ c.ptr)) = ds := by
        rw [List.filter_eq_self]
        intro x hx
        have : x.ptr ≠ c.ptr := fun hxc => hp.1 (hxc ▸ List.mem_map_of_mem CurveGui.ptr hx)
        simpa using this
      rw [removeCurveLoop, if_pos rfl, List.filter_cons, if_neg (by simp), hds]
    · have hcds : c ∈ ds := by
        rcases List.mem_cons.mp hc with h | h
        · exact absurd (h ▸ rfl) hd
        · exact h
      simp [removeCurveLoop, hd, List.filter_cons, ih hcds hp.2]

theorem assignedColors_from (ops : List RegistryOp) (s : Widget) (j : Nat)
    (hs : s.nextCurveAddedColor
      = { hsvHue := (200 + 60 * (j : Int)) % 360, hsvSaturation := 255, value := 255 }) :
    assignedColors s ops
      = (List.range (createCount ops)).map fun (k : Nat) =>
          ({ hsvHue := (200 + 60 * ((j + k : Nat) : Int)) % 360, hsvSaturation := 255,
             value := 255 } : QColor) := by
  induction ops generalizing s j with
  | nil => rfl
  | cons op ops ih =>
    cases op with
    | create ptr keys =>
      have hnext : (createCurve s ptr keys).1.nextCurveAddedColor
          = { hsvHue := (200 + 60 * ((j + 1 : Nat) : Int)) % 360, hsvSaturation := 255,
              value := 255 } := by
        simp only [createCurve, QColor.setHsv, hs]
        congr 1
        push_cast
        omega
      have hcol : (createCurve s ptr keys).2.color
          = { hsvHue := (200 + 60 * ((j + 0 : Nat) : Int)) % 360, hsvSaturation := 255,
              value := 255 } := by
        simp only [createCurve, hs, Nat.add_zero]
      rw [assignedColors, createCount, List.range_succ_eq_map, List.map_cons, List.map_map,
        hcol, ih _ (j + 1) hnext]
      congr 1
      apply List.map_congr_left
      intro k _
      simp only [Function.comp, Nat.succ_eq_add_one]
      congr 3
      omega
    | remove curve =>
      rw [assignedColors, createCount]
      exact ih _ j hs

/-! ## Auxiliary facts about the key frame drag -/

theorem time_setValue (kf : Nat → KeyFrame) (k k' : Nat) (v : ℚ) :
    (setValue kf k v k').time = (kf k').time := by
  by_cases h : k' = k
  · subst h
    simp [setValue]
  · simp [setValue, Function.update_noteq h]

theorem time_setTime_of_ne (kf : Nat → KeyFrame) (k k' : Nat) (t : ℚ) (h : k' ≠ k) :
    (setTime kf k t k').time = (kf k').time := by
  simp [setTime, Function.update_noteq h]

theorem time_setTime_self (kf : Nat → KeyFrame) (k : Nat) (t : ℚ) :
    (setTime kf k t k).time = t := by
  simp [setTime]

theorem keyTimes_setValue (kf : Nat → KeyFrame) (k : Nat) (v : ℚ) (c : CurveGui) :
    keyTimes (setValue kf k v) c = keyTimes kf c := by
  unfold keyTimes
  exact List.map_congr_left fun k' _ => time_setValue kf k k' v

theorem map_time_setTime_of_not_mem (kf : Nat → KeyFrame) (k : Nat) (t : ℚ) (l : List Nat)
    (h : k ∉ l) :
    (l.map fun k' => (setTime kf k t k').time) = l.map fun k' => (kf k').time := by
  apply List.map_congr_left
  intro k' hk'
  exact time_setTime_of_ne kf k k' t fun e => h (e ▸ hk')

theorem strictlyIncreasing_setTime (kf : Nat → KeyFrame) (c : CurveGui) (k : Nat) (t : ℚ)
    (hs : StrictlyIncreasing kf c) (hk : k ∈ c.keys)
    (hwn : withinNeighbours kf c.keys (c.keys.indexOf k) t = true) :
    StrictlyIncreasing (setTime kf k t) c := by
  unfold withinNeighbours at hwn
  rw [Bool.and_eq_true] at hwn
  obtain ⟨hprev, hnext⟩ := hwn
  obtain ⟨pre, post, hkeys⟩ := List.append_of_mem hk
  unfold StrictlyIncreasing keyTimes at hs ⊢
  rw [hkeys] at hs hprev hnext ⊢
  rw [List.map_append, List.map_cons, List.pairwise_append, List.pairwise_cons] at hs
  obtain ⟨hs1, ⟨hs2, hs3⟩, hs4⟩ := hs
  have hpre : k ∉ pre := by
    intro hmem
    have := hs4 _ (List.mem_map_of_mem (fun k => (kf k).time) hmem) _ (List.mem_cons_self _ _)
    exact lt_irrefl _ this
  have hpost : k ∉ post := by
    intro hmem
    have := hs2 _ (List.mem_map_of_mem (fun k => (kf k).time) hmem)
    exact lt_irrefl _ this
  have hidx : (pre ++ k :: post).indexOf k = pre.length := by
    rw [List.indexOf_append_of_not_mem hpre, List.indexOf_cons_self, Nat.add_zero]
  rw [hidx] at hprev hnext
  rw [List.map_append, List.map_cons, List.pairwise_append, List.pairwise_cons,
    map_time_setTime_of_not_mem kf k t pre hpre, map_time_setTime_of_not_mem kf k t post hpost,
    time_setTime_self]
  refine ⟨hs1, ⟨?_, hs3⟩, ?_⟩
  · intro b hb
    cases post with
    | nil => simp at hb
    | cons n post' =>
      simp only [List.length_append, List.getElem?_append_right (Nat.le_succ _)] at hnext
      simp at hnext
      rw [List.map_cons, List.pairwise_cons] at hs3
      rcases List.mem_cons.mp hb with hbn | hbp
      · rw [hbn]
        exact hnext
      · exact lt_trans hnext (hs3.1 b hbp)
  · intro a ha b hb
    rcases List.mem_cons.mp hb with hbt | hbp
    · rw [hbt]
      rcases List.eq_nil_or_concat pre with hnil | ⟨pre', p, hpp⟩
      · subst hnil
        simp at ha
      · subst hpp
        have e : (pre'.concat p ++ k :: post)[(pre'.concat p).length - 1]? = some p := by
          simp only [List.concat_eq_append, List.length_append, List.length_singleton,
            Nat.add_sub_cancel, List.append_assoc, List.singleton_append]
          rw [List.getElem?_append_right (le_refl _)]
          simp
        have hne : (pre'.concat p).length ≠ 0 := by simp
        rw [if_pos hne, e] at hprev
        simp only [gt_iff_lt, decide_eq_true_eq] at hprev
        rw [List.concat_eq_append, List.map_append, List.pairwise_append] at hs1
        rw [List.concat_eq_append, List.map_append, List.mem_append] at ha
        rcases ha with ha | ha
        · exact lt_trans (hs1.2.2 a ha _ (by simp)) hprev
        · simp only [List.map_cons, List.map_nil, List.mem_singleton] at ha
          rw [ha]
          exact hprev
    · exact hs4 a ha b (List.mem_cons_of_mem _ hbp)

theorem dragSelectedKey_strictlyIncreasing (curves : List CurveGui) (o : Int × Int)
    (newClick translation : ℚ × ℚ) (kf : Nat → KeyFrame) (it : Nat × Nat) (c : CurveGui)
    (hwf : EntryWellFormed curves c it) (hs : StrictlyIncreasing kf c) :
    ∃ kf', dragSelectedKey curves o newClick translation kf it = some kf' ∧
      StrictlyIncreasing kf' c := by
  obtain ⟨c', hfind, hmem, hown⟩ := hwf
  have hidx : c'.keys.indexOf it.2 ≠ c'.keys.length :=
    (List.indexOf_lt_length.mpr hmem).ne
  unfold dragSelectedKey
  simp only [hfind, hidx, if_false]
  have keep : ∀ kf1 : Nat → KeyFrame, StrictlyIncreasing kf1 c →
      ∃ kf', Option.map (fun kf => setValue kf it.2 ((kf it.2).value + translation.2))
        (some kf1) = some kf' ∧ StrictlyIncreasing kf' c := by
    intro kf1 h1
    refine ⟨_, rfl, ?_⟩
    unfold StrictlyIncreasing
    rw [keyTimes_setValue]
    exact h1
  by_cases hd : (newClick.1 - (kf it.2).time) * (o.1 : ℚ) ≠ 0
  · rw [if_pos hd]
    cases hwn : withinNeighbours kf c'.keys (c'.keys.indexOf it.2)
      ((kf it.2).time + ⌈(newClick.1 - (kf it.2).time) * (o.1 : ℚ)⌉)
    · simp only [Bool.false_eq_true, if_false]
      exact keep kf hs
    · simp only [if_true]
      apply keep
      by_cases hk : it.2 ∈ c.keys
      · rw [hown hk] at hwn
        exact strictlyIncreasing_setTime kf c it.2 _ hs hk hwn
      · unfold StrictlyIncreasing keyTimes
        rw [map_time_setTime_of_not_mem kf it.2 _ c.keys hk]
        exact hs
  · rw [if_neg hd]
    exact keep kf hs

theorem dragSelectedKeys_strictlyIncreasing (curves : List CurveGui) (o : Int × Int)
    (newClick translation : ℚ × ℚ) (c : CurveGui) (selected : List (Nat × Nat))
    (kf : Nat → KeyFrame)
    (hwf : ∀ it ∈ selected, EntryWellFormed curves c it) (hs : StrictlyIncreasing kf c) :
    ∃ kf', dragSelectedKeys curves o newClick translation selected kf = some kf' ∧
      StrictlyIncreasing kf' c := by
  induction selected generalizing kf with
  | nil => exact ⟨kf, rfl, hs⟩
  | cons it rest ih =>
    obtain ⟨kf1, h1, hs1⟩ := dragSelectedKey_strictlyIncreasing curves o newClick translation
      kf it c (hwf it (List.mem_cons_self _ _)) hs
    obtain ⟨kf2, h2, hs2⟩ := ih kf1 (fun it' h => hwf it' (List.mem_cons_of_mem _ h)) hs1
    exact ⟨kf2, by simp only [dragSelectedKeys, h1, h2], hs2⟩

theorem centerOn_zoomFactor_pos (s : Widget) (xmin xmax ymin ymax : ℚ)
    (hw : 0 < s.width) (hh : 0 < s.height) (hx : xmin < xmax) (hy : ymin < ymax) :
    0 < (centerOn s xmin xmax ymin ymax).zoomCtx.zoomFactor := by
  have hw' : (0 : ℚ) < s.width := by exact_mod_cast hw
  have hh' : (0 : ℚ) < s.height := by exact_mod_cast hh
  have hcw : 0 < xmax - xmin := sub_pos.mpr hx
  have hch : 0 < ymax - ymin := sub_pos.mpr hy
  simp only [centerOn, ASPECT_RATIO]
  split_ifs
  · exact div_pos hw' hcw
  · exact div_pos (by positivity) hch

theorem scenario_toScale (x y : Int) :
    toScaleCoordinates draggingScenarioWidget x y = ((x : ℚ), 100 - (y : ℚ) / 10) := by
  simp only [toScaleCoordinates, draggingScenarioWidget, selectedScenarioWidget, scenarioWidget,
    sampleWidget, ASPECT_RATIO]
  ext
  · simp only
    norm_num
  · simp only
    norm_num
    ring

/-- In the scenario widget, dragging the key frame (t=10, v=5) to the pixel column 20
writes the time 20; dragging it to the pixel column -5, before the key frame at t=0,
leaves the time 10. -/
theorem scenario_drag_times :
    (mouseMoveEvent draggingScenarioWidget 20 950).map (fun s' => (s'.keyFrames 1).time)
      = some 20 ∧
    (mouseMoveEvent draggingScenarioWidget (-5) 950).map (fun s' => (s'.keyFrames 1).time)
      = some 10 := by
  constructor
  · simp only [mouseMoveEvent, scenario_toScale]
    simp [draggingScenarioWidget, selectedScenarioWidget, scenarioWidget, sampleWidget,
        dragSelectedKeys, dragSelectedKey, withinNeighbours, curveA, setTime, setValue]
    norm_num
  · simp only [mouseMoveEvent, scenario_toScale]
    simp [draggingScenarioWidget, selectedScenarioWidget, scenarioWidget, sampleWidget,
        dragSelectedKeys, dragSelectedKey, withinNeighbours, curveA, setTime, setValue]
    norm_num

/-- Four registrations with a removal in between receive the hues 200, 260, 320, 20. -/
theorem sample_colours :
    (assignedColors (Widget.new 1000 1000 sampleWidget.zoomCtx sampleWidget.keyFrames)
      [RegistryOp.create 100 [0, 1], RegistryOp.create 101 [], RegistryOp.remove 100,
       RegistryOp.create 102 [2], RegistryOp.create 103 []]).map QColor.hsvHue
      = [200, 260, 320, 20] := by
  decide

/-! ## Auxiliary facts about the value update -/

theorem value_setTime (kf : Nat → KeyFrame) (k k' : Nat) (t : ℚ) :
    (setTime kf k t k').value = (kf k').value := by
  by_cases h : k' = k
  · subst h
    simp [setTime]
  · simp [setTime, Function.update_noteq h]

theorem value_setValue (kf : Nat → KeyFrame) (k k' : Nat) (v : ℚ) :
    (setValue kf k v k').value = if k' = k then v else (kf k').value := by
  by_cases h : k' = k
  · subst h
    simp [setValue]
  · simp [setValue, Function.update_noteq h, h]

theorem dragSelectedKey_value (curves : List CurveGui) (o : Int × Int)
    (newClick translation : ℚ × ℚ) (kf : Nat → KeyFrame) (it : Nat × Nat)
    (hreg : EntryRegistered curves it) :
    ∃ kf', dragSelectedKey curves o newClick translation kf it = some kf' ∧
      ∀ k, (kf' k).value
        = if k = it.2 then (kf k).value + translation.2 else (kf k).value := by
  obtain ⟨c', hfind, hmem⟩ := hreg
  have hidx : c'.keys.indexOf it.2 ≠ c'.keys.length :=
    (List.indexOf_lt_length.mpr hmem).ne
  have keep : ∀ kf1 : Nat → KeyFrame, (∀ k, (kf1 k).value = (kf k).value) →
      ∃ kf', Option.map (fun kf => setValue kf it.2 ((kf it.2).value + translation.2))
        (some kf1) = some kf' ∧
        ∀ k, (kf' k).value
          = if k = it.2 then (kf k).value + translation.2 else (kf k).value := by
    intro kf1 h1
    refine ⟨_, rfl, ?_⟩
    intro k
    rw [value_setValue, h1 it.2, h1 k]
    split_ifs with h
    · rw [h]
    · rfl
  unfold dragSelectedKey
  simp only [hfind, hidx, if_false]
  by_cases hd : (newClick.1 - (kf it.2).time) * (o.1 : ℚ) ≠ 0
  · rw [if_pos hd]
    cases hwn : withinNeighbours kf c'.keys (c'.keys.indexOf it.2)
      ((kf it.2).time + ⌈(newClick.1 - (kf it.2).time) * (o.1 : ℚ)⌉)
    · simp only [Bool.false_eq_true, if_false]
      exact keep kf fun _ => rfl
    · simp only [if_true]
      exact keep _ fun k => value_setTime kf it.2 k _
  · rw [if_neg hd]
    exact keep kf fun _ => rfl

theorem dragSelectedKeys_value (curves : List CurveGui) (o : Int × Int)
    (newClick translation : ℚ × ℚ) (selected : List (Nat × Nat)) (kf : Nat → KeyFrame)
    (hreg : ∀ it ∈ selected, EntryRegistered curves it)
    (hu : (selected.map Prod.snd).Nodup) :
    ∃ kf', dragSelectedKeys curves o newClick translation selected kf = some kf' ∧
      ∀ k, (kf' k).value
        = if k ∈ selected.map Prod.snd then (kf k).value + translation.2
          else (kf k).value := by
  induction selected generalizing kf with
  | nil => exact ⟨kf, rfl, fun k => by simp⟩
  | cons it rest ih =>
    rw [List.map_cons, List.nodup_cons] at hu
    obtain ⟨kf1, h1, hv1⟩ := dragSelectedKey_value curves o newClick translation kf it
      (hreg it (List.mem_cons_self _ _))
    obtain ⟨kf2, h2, hv2⟩ := ih kf1 (fun it' h => hreg it' (List.mem_cons_of_mem _ h)) hu.2
    refine ⟨kf2, by simp only [dragSelectedKeys, h1, h2], ?_⟩
    intro k
    rw [hv2 k, hv1 k]
    by_cases hk : k = it.2
    · have hnot : k ∉ rest.map Prod.snd := by
        rw [hk]
        exact hu.1
      rw [if_neg hnot, if_pos hk, if_pos (by rw [hk]; exact List.mem_cons_self _ _)]
    · by_cases hr : k ∈ rest.map Prod.snd
      · have hm : k ∈ (it :: rest).map Prod.snd := by
          rw [List.map_cons]
          exact List.mem_cons_of_mem _ hr
        rw [if_pos hr, if_neg hk, if_pos hm]
      · have hm : k ∉ (it :: rest).map Prod.snd := by
          rw [List.map_cons, List.mem_cons]
          exact fun h => h.elim hk hr
        rw [if_neg hr, if_neg hk, if_neg hm]

/-! ## Auxiliary facts about the candidate time -/

theorem keyFrameAccepted_congr (s s' : Widget) (pt : Int × Int) (k : Nat)
    (hw : s'.width = s.width) (hh : s'.height = s.height) (hz : s'.zoomCtx = s.zoomCtx)
    (hk : s'.keyFrames = s.keyFrames) :
    keyFrameAccepted s' pt k = keyFrameAccepted s pt k := by
  simp only [keyFrameAccepted, toWidgetCoordinates, hw, hh, hz, hk]

theorem isNearbyKeyFrameKeys_congr (s s' : Widget) (pt : Int × Int) (curve : Nat)
    (keys : List Nat)
    (hw : s'.width = s.width) (hh : s'.height = s.height) (hz : s'.zoomCtx = s.zoomCtx)
    (hk : s'.keyFrames = s.keyFrames) :
    isNearbyKeyFrameKeys s' pt curve keys = isNearbyKeyFrameKeys s pt curve keys := by
  induction keys with
  | nil => rfl
  | cons k ks ih =>
    simp only [isNearbyKeyFrameKeys, keyFrameAccepted_congr s s' pt k hw hh hz hk, ih]

theorem isNearbyKeyFrameCurves_congr (s s' : Widget) (pt : Int × Int) (f : CurveGui → CurveGui)
    (curves : List CurveGui)
    (hw : s'.width = s.width) (hh : s'.height = s.height) (hz : s'.zoomCtx = s.zoomCtx)
    (hk : s'.keyFrames = s.keyFrames)
    (hf : ∀ c, (f c).visible = c.visible ∧ (f c).ptr = c.ptr ∧ (f c).keys = c.keys) :
    isNearbyKeyFrameCurves s' pt (curves.map f) = isNearbyKeyFrameCurves s pt curves := by
  induction curves with
  | nil => rfl
  | cons c cs ih =>
    simp only [List.map_cons, isNearbyKeyFrameCurves, (hf c).1, (hf c).2.1, (hf c).2.2,
      isNearbyKeyFrameKeys_congr s s' pt c.ptr c.keys hw hh hz hk, ih]

theorem isNearbyCurveLoop_congr (s s' : Widget) (g : Nat → ℚ → ℚ) (pt : Int × Int)
    (curves : List CurveGui)
    (hw : s'.width = s.width) (hh : s'.height = s.height) (hz : s'.zoomCtx = s.zoomCtx) :
    isNearbyCurveLoop s' g pt curves = isNearbyCurveLoop s g pt curves := by
  induction curves with
  | nil => rfl
  | cons c cs ih =>
    simp only [isNearbyCurveLoop, toScaleCoordinates, toWidgetCoordinates, hw, hh, hz, ih]

theorem isNearbyCurveLoop_mem (s : Widget) (g : Nat → ℚ → ℚ) (pt : Int × Int)
    (curves : List CurveGui) (found : Nat)
    (h : isNearbyCurveLoop s g pt curves = some found) :
    ∃ c ∈ curves, c.ptr = found ∧ c.visible = true := by
  induction curves with
  | nil => cases h
  | cons c cs ih =>
    simp only [isNearbyCurveLoop] at h
    split_ifs at h with hv hd
    · exact ⟨c, List.mem_cons_self _ _, Option.some.inj h, hv⟩
    · obtain ⟨c', hc', hp⟩ := ih h
      exact ⟨c', List.mem_cons_of_mem _ hc', hp⟩
    · obtain ⟨c', hc', hp⟩ := ih h
      exact ⟨c', List.mem_cons_of_mem _ hc', hp⟩

theorem selectCurve_curves (s : Widget) (curve : Nat) :
    (selectCurve s curve).curves
      = s.curves.map fun c => { c with selected := decide (c.ptr = curve) } := by
  simp only [selectCurve, List.map_map]
  apply List.map_congr_left
  intro c _
  by_cases h : c.ptr = curve
  · simp [h]
  · simp [h]

theorem isNearbyKeyFrame_congr (s s' : Widget) (pt : Int × Int) (f : CurveGui → CurveGui)
    (hw : s'.width = s.width) (hh : s'.height = s.height) (hz : s'.zoomCtx = s.zoomCtx)
    (hk : s'.keyFrames = s.keyFrames) (hc : s'.curves = s.curves.map f)
    (hf : ∀ c, (f c).visible = c.visible ∧ (f c).ptr = c.ptr ∧ (f c).keys = c.keys) :
    isNearbyKeyFrame s' pt = isNearbyKeyFrame s pt := by
  unfold isNearbyKeyFrame
  rw [hc]
  exact isNearbyKeyFrameCurves_congr s s' pt f s.curves hw hh hz hk hf

/-- The fields of the state after `mousePressEvent` with a button other than the right
one, in terms of the state `s1` after the curve selection. -/
theorem mousePressEvent_fields (s : Widget) (g : Nat → ℚ → ℚ) (button : MouseButton)
    (altModifier : Bool) (pos : Int × Int) (hb : button ≠ MouseButton.RightButton)
    (s1 : Widget)
    (hs1 : s1 = match isNearbyCurve { s with mustSetDragOrientation := true } g pos with
      | some foundCurveNearby =>
        selectCurve { s with mustSetDragOrientation := true } foundCurveNearby
      | none => { s with mustSetDragOrientation := true }) :
    (mousePressEvent s g button altModifier pos).curves = s1.curves ∧
    (mousePressEvent s g button altModifier pos).selectedKeyFrames
      = (isNearbyKeyFrame { s1 with selectedKeyFrames := [] } pos).toList := by
  unfold mousePressEvent
  simp only [if_neg hb, ← hs1]
  cases isNearbyKeyFrame { s1 with selectedKeyFrames := [] } pos <;>
    split_ifs <;> exact ⟨rfl, rfl⟩

/-! ## Auxiliary facts about the degenerate centring -/

/-- On a rectangle with `xmin < xmax` and `ymin < ymax`, in a widget with a height,
`centerOnIEEE` assigns what `centerOn` assigns. -/
theorem centerOnIEEE_eq_centerOn (s : Widget) (xmin xmax ymin ymax : ℚ)
    (hh : 0 < s.height) (hx : xmin < xmax) (hy : ymin < ymax) :
    centerOnIEEE s xmin xmax ymin ymax
      = { left := (centerOn s xmin xmax ymin ymax).zoomCtx.left
          bottom := (centerOn s xmin xmax ymin ymax).zoomCtx.bottom
          zoomFactor := Double.finite (centerOn s xmin xmax ymin ymax).zoomCtx.zoomFactor } := by
  have hh' : (s.height : ℚ) * ASPECT_RATIO ≠ 0 := by
    have : (0 : ℚ) < s.height := by exact_mod_cast hh
    unfold ASPECT_RATIO
    positivity
  have hcw : xmax - xmin ≠ 0 := (sub_pos.mpr hx).ne'
  have hch : ymax - ymin ≠ 0 := (sub_pos.mpr hy).ne'
  simp only [centerOnIEEE, centerOn, Double.div, hh', hcw, hch, ne_eq, not_false_eq_true,
    if_true, Double.lt, decide_eq_true_eq]
  split_ifs <;> rfl

/-! ## Auxiliary facts about the computed widget position -/

theorem toWidgetCoordinates_eq (s : Widget) (x y : ℚ) :
    toWidgetCoordinates s x y
      = (toInt (widgetPositionDouble s x y).1, toInt (widgetPositionDouble s x y).2) := rfl

/-- The first double that `toWidgetCoordinates` casts is within a relative `2^-34` of the
exact widget position, for an origin within 65536 visible widths of 0. -/
theorem widgetPositionDouble_fst_error (s : Widget) (x y : ℚ)
    (hw : 0 < s.width) (hz : 0 < s.zoomCtx.zoomFactor)
    (hleft : |s.zoomCtx.left| ≤ 65536 * ((s.width : ℚ) / s.zoomCtx.zoomFactor)) :
    |(widgetPositionDouble s x y).1 - (widgetPosition s x y).1|
      ≤ 1 / 2 ^ 34 * |(widgetPosition s x y).1| := by
  have hw' : (0 : ℚ) < s.width := by exact_mod_cast hw
  have hW : (0 : ℚ) < (s.width : ℚ) / s.zoomCtx.zoomFactor := div_pos hw' hz
  simp only [widgetPositionDouble, widgetPosition, add_sub_cancel_left]
  have hden := visible_width_error ((s.width : ℚ) / s.zoomCtx.zoomFactor) s.zoomCtx.left
    (roundDouble ((s.width : ℚ) / s.zoomCtx.zoomFactor))
    (roundDouble (s.zoomCtx.left + roundDouble ((s.width : ℚ) / s.zoomCtx.zoomFactor)))
    (roundDouble (roundDouble (s.zoomCtx.left
      + roundDouble ((s.width : ℚ) / s.zoomCtx.zoomFactor)) - s.zoomCtx.left))
    hW hleft (roundDouble_sub_abs_le _) (roundDouble_sub_abs_le _) (roundDouble_sub_abs_le _)
  have hnum : |roundDouble (x - s.zoomCtx.left) - (x - s.zoomCtx.left)|
      ≤ 1 / 2 ^ 53 * |x - s.zoomCtx.left| + 0 := by
    have := roundDouble_sub_abs_le (x - s.zoomCtx.left)
    linarith
  have hr : ∀ q : ℚ, |roundDouble q - q| ≤ 1 / 2 ^ 53 * |q| := by
    intro q
    have := roundDouble_sub_abs_le q
    linarith
  have h := projection_error (x - s.zoomCtx.left) ((s.width : ℚ) / s.zoomCtx.zoomFactor)
    (roundDouble (x - s.zoomCtx.left))
    (roundDouble (roundDouble (s.zoomCtx.left
      + roundDouble ((s.width : ℚ) / s.zoomCtx.zoomFactor)) - s.zoomCtx.left))
    (roundDouble (roundDouble (x - s.zoomCtx.left)
      / roundDouble (roundDouble (s.zoomCtx.left
        + roundDouble ((s.width : ℚ) / s.zoomCtx.zoomFactor)) - s.zoomCtx.left)))
    (roundDouble (roundDouble (roundDouble (x - s.zoomCtx.left)
      / roundDouble (roundDouble (s.zoomCtx.left
        + roundDouble ((s.width : ℚ) / s.zoomCtx.zoomFactor)) - s.zoomCtx.left)) * s.width))
    s.width (1 / 2 ^ 53) (1 / 2 ^ 53) 0 (1 / 2 ^ 36) hW.ne' hw'.le
    (by norm_num) (by norm_num) (by norm_num) (le_refl _) (by norm_num) (by norm_num)
    hnum hden (hr _) (hr _)
  have hnn := abs_nonneg ((x - s.zoomCtx.left) / ((s.width : ℚ) / s.zoomCtx.zoomFactor) * s.width)
  calc _ ≤ (3 * (1 / 2 ^ 53) + 2 * (1 / 2 ^ 53 + 1 / 2 ^ 36))
          * |(x - s.zoomCtx.left) / ((s.width : ℚ) / s.zoomCtx.zoomFactor) * s.width|
          + 2 * (0 / |(s.width : ℚ) / s.zoomCtx.zoomFactor|) * s.width := h
    _ ≤ 1 / 2 ^ 34
          * |(x - s.zoomCtx.left) / ((s.width : ℚ) / s.zoomCtx.zoomFactor) * s.width| := by
        rw [zero_div, mul_zero, zero_mul, add_zero]
        apply mul_le_mul_of_nonneg_right _ hnn
        norm_num

/-- The second double that `toWidgetCoordinates` casts is within a relative `2^-32` of the
exact widget position plus `2^-34` widget heights, for an origin within 65536 visible
heights of 0. -/
theorem widgetPositionDouble_snd_error (s : Widget) (x y : ℚ)
    (hh : 0 < s.height) (hz : 0 < s.zoomCtx.zoomFactor)
    (hbottom : |s.zoomCtx.bottom|
      ≤ 65536 * ((s.height : ℚ) / s.zoomCtx.zoomFactor * ASPECT_RATIO)) :
    |(widgetPositionDouble s x y).2 - (widgetPosition s x y).2|
      ≤ 1 / 2 ^ 32 * |(widgetPosition s x y).2| + 1 / 2 ^ 34 * s.height := by
  have hh' : (0 : ℚ) < s.height := by exact_mod_cast hh
  have hG : (0 : ℚ) < (s.height : ℚ) / s.zoomCtx.zoomFactor := div_pos hh' hz
  have hr : ∀ q : ℚ, |roundDouble q - q| ≤ 1 / 2 ^ 53 * |q| := by
    intro q
    have := roundDouble_sub_abs_le q
    linarith
  unfold ASPECT_RATIO at hbottom
  simp only [widgetPositionDouble, widgetPosition, ASPECT_RATIO]
  -- names for the quantities of the computation
  generalize hGdef : (s.height : ℚ) / s.zoomCtx.zoomFactor = G at hG hbottom ⊢
  generalize hBdef : s.zoomCtx.bottom = B at hbottom ⊢
  have htop := visible_top_error G B (roundDouble G) (roundDouble (1 / 10))
    (roundDouble (roundDouble G * roundDouble (1 / 10)))
    (roundDouble (B + roundDouble (roundDouble G * roundDouble (1 / 10))))
    hG hbottom (roundDouble_sub_abs_le _) (roundDouble_sub_abs_le _)
    (roundDouble_sub_abs_le _) (roundDouble_sub_abs_le _)
  generalize hTdef : roundDouble (B + roundDouble (roundDouble G * roundDouble (1 / 10))) = T
    at htop ⊢
  have hH : (0 : ℚ) < G * (1 / 10) := by positivity
  generalize hHdef : G * (1 / 10) = H at htop hH ⊢
  have hτ := abs_le.mp htop
  have hD : B - (B + H) = -H := by ring
  rw [hD]
  have hDabs : |(-H)| = H := by rw [abs_neg, abs_of_pos hH]
  -- the numerator
  have hnum : |roundDouble (y - T) - (y - (B + H))|
      ≤ 1 / 2 ^ 53 * |y - (B + H)| + 1 / 2 ^ 35 * H := by
    have h1 := hr (y - T)
    have h2 : |y - T| ≤ |y - (B + H)| + 1 / 2 ^ 36 * H := by
      have e : y - T = (y - (B + H)) - (T - (B + H)) := by ring
      rw [e]
      exact le_trans (abs_sub _ _) (add_le_add_left htop _)
    have h3 : roundDouble (y - T) - (y - (B + H))
        = (roundDouble (y - T) - (y - T)) - (T - (B + H)) := by ring
    rw [h3]
    have h4 := abs_sub (roundDouble (y - T) - (y - T)) (T - (B + H))
    have h5 : 1 / 2 ^ 53 * |y - T| ≤ 1 / 2 ^ 53 * (|y - (B + H)| + 1 / 2 ^ 36 * H) :=
      mul_le_mul_of_nonneg_left h2 (by norm_num)
    linarith
  -- the denominator
  have hden : |roundDouble (B - T) - (-H)| ≤ 1 / 2 ^ 34 * |(-H)| := by
    rw [hDabs]
    have h1 := hr (B - T)
    have h2 : |B - T| ≤ H + 1 / 2 ^ 36 * H := by
      rw [abs_le]
      constructor <;> linarith [hτ.1, hτ.2]
    have h3 : roundDouble (B - T) - (-H) = (roundDouble (B - T) - (B - T)) - (T - (B + H)) := by
      ring
    rw [h3]
    have h4 := abs_sub (roundDouble (B - T) - (B - T)) (T - (B + H))
    have h5 : 1 / 2 ^ 53 * |B - T| ≤ 1 / 2 ^ 53 * (H + 1 / 2 ^ 36 * H) :=
      mul_le_mul_of_nonneg_left h2 (by norm_num)
    linarith
  have h := projection_error (y - (B + H)) (-H) (roundDouble (y - T)) (roundDouble (B - T))
    (roundDouble (roundDouble (y - T) / roundDouble (B - T)))
    (roundDouble (roundDouble (roundDouble (y - T) / roundDouble (B - T)) * s.height))
    s.height (1 / 2 ^ 53) (1 / 2 ^ 53) (1 / 2 ^ 35 * H) (1 / 2 ^ 34) (neg_ne_zero.mpr hH.ne')
    hh'.le (by norm_num) (by norm_num) (by norm_num) (by positivity) (by norm_num)
    (by norm_num) hnum hden (hr _) (hr _)
  have hnn := abs_nonneg ((y - (B + H)) / -H * s.height)
  rw [hDabs] at h
  have e1 : 2 * (1 / 2 ^ 35 * H / H) * (s.height : ℚ) = 1 / 2 ^ 34 * s.height := by
    field_simp
    ring
  rw [e1] at h
  have e2 : (3 * (1 / 2 ^ 53) + 2 * (1 / 2 ^ 53 + 1 / 2 ^ 34))
      * |(y - (B + H)) / -H * s.height| ≤ 1 / 2 ^ 32 * |(y - (B + H)) / -H * s.height| := by
    apply mul_le_mul_of_nonneg_right _ hnn
    norm_num
  linarith

/-- The cast of a double within the range of `int` loses less than 1. -/
theorem toInt_sub_abs_lt (d : ℚ) (h : |d| ≤ 2147483646) : |(toInt d : ℚ) - d| < 1 := by
  have ht := truncate_sub_abs_lt d
  have ht' := abs_lt.mp ht
  have hd := abs_le.mp h
  have h1 : (-2147483648 : ℚ) < (truncate d : ℚ) := by linarith [ht'.1, hd.1]
  have h2 : (truncate d : ℚ) < 2147483648 := by linarith [ht'.2, hd.2]
  have h3 : -2147483648 < truncate d := by exact_mod_cast h1
  have h4 : truncate d < 2147483648 := by exact_mod_cast h2
  rw [toInt, if_pos ⟨by omega, by omega⟩]
  exact ht

/-- In exact arithmetic the domain position of a pixel and a domain point differ by the
difference between the pixel and the widget position of the point, over the zoom
factor. -/
theorem toScaleCoordinates_sub (s : Widget) (px py : Int) (x y : ℚ)
    (hw : 0 < s.width) (hh : 0 < s.height) (hz : 0 < s.zoomCtx.zoomFactor) :
    (toScaleCoordinates s px py).1 - x
        = ((px : ℚ) - (widgetPosition s x y).1) / s.zoomCtx.zoomFactor ∧
    (toScaleCoordinates s px py).2 - y
        = -(((py : ℚ) - (widgetPosition s x y).2) * ( ASPECT_RATIO / s.zoomCtx.zoomFactor)) := by
  have hw' : (s.width : ℚ) ≠ 0 := by exact_mod_cast hw.ne'
  have hh' : (s.height : ℚ) ≠ 0 := by exact_mod_cast hh.ne'
  have hz' := hz.ne'
  constructor
  · simp only [toScaleCoordinates, widgetPosition, add_sub_cancel_left]
    field_simp
    ring
  · simp only [toScaleCoordinates, widgetPosition, ASPECT_RATIO]
    have e : s.zoomCtx.bottom - (s.zoomCtx.bottom + (s.height : ℚ) / s.zoomCtx.zoomFactor * (1 / 10))
        = -((s.height : ℚ) / s.zoomCtx.zoomFactor / 10) := by ring
    rw [e]
    have hd : -((s.height : ℚ) / s.zoomCtx.zoomFactor / 10) ≠ 0 := by
      simp [hh', hz']
    have e1 : (y - (s.zoomCtx.bottom + (s.height : ℚ) / s.zoomCtx.zoomFactor * (1 / 10)))
        / -((s.height : ℚ) / s.zoomCtx.zoomFactor / 10) * s.height
        = (s.zoomCtx.bottom + (s.height : ℚ) / s.zoomCtx.zoomFactor * (1 / 10) - y)
          * s.zoomCtx.zoomFactor * 10 := by
      rw [div_mul_eq_mul_div, div_eq_iff hd]
      field_simp
      ring
    rw [e1]
    field_simp
    ring

/-- The exact widget position of the first double that `toScaleCoordinates` computes for
the pixel column `px` is within `2^-31 |px| + 2^-37 w` of `px`, for an origin within
65536 visible widths of 0. -/
theorem toScaleCoordinatesDouble_fst_error (s : Widget) (px py : Int) (y : ℚ)
    (hw : 0 < s.width) (hz : 0 < s.zoomCtx.zoomFactor)
    (hleft : |s.zoomCtx.left| ≤ 65536 * ((s.width : ℚ) / s.zoomCtx.zoomFactor)) :
    |(widgetPosition s (toScaleCoordinatesDouble s px py).1 y).1 - px|
      ≤ 1 / 2 ^ 31 * |(px : ℚ)| + 1 / 2 ^ 37 * s.width := by
  have hw' : (0 : ℚ) < s.width := by exact_mod_cast hw
  have hW : (0 : ℚ) < (s.width : ℚ) / s.zoomCtx.zoomFactor := div_pos hw' hz
  simp only [widgetPosition, toScaleCoordinatesDouble, add_sub_cancel_left]
  have hden := visible_width_error ((s.width : ℚ) / s.zoomCtx.zoomFactor) s.zoomCtx.left
    (roundDouble ((s.width : ℚ) / s.zoomCtx.zoomFactor))
    (roundDouble (s.zoomCtx.left + roundDouble ((s.width : ℚ) / s.zoomCtx.zoomFactor)))
    (roundDouble (roundDouble (s.zoomCtx.left
      + roundDouble ((s.width : ℚ) / s.zoomCtx.zoomFactor)) - s.zoomCtx.left))
    hW hleft (roundDouble_sub_abs_le _) (roundDouble_sub_abs_le _) (roundDouble_sub_abs_le _)
  generalize hWdef : (s.width : ℚ) / s.zoomCtx.zoomFactor = W at hW hleft hden ⊢
  generalize hddef : roundDouble (roundDouble (s.zoomCtx.left + roundDouble W)
    - s.zoomCtx.left) = d at hden ⊢
  generalize hLdef : s.zoomCtx.left = L at hleft ⊢
  generalize hwdef : (s.width : ℚ) = w at hw' ⊢
  have hden' : |d - W| ≤ 1 / 2 ^ 34 * |W| :=
    le_trans hden (mul_le_mul_of_nonneg_right (by norm_num) (abs_nonneg _))
  have h := scale_error W d px w L (roundDouble (d * px)) (roundDouble (roundDouble (d * px) / w))
    (roundDouble (roundDouble (roundDouble (d * px) / w) + L)) hw' hden'
    (roundDouble_sub_abs_le _) (roundDouble_sub_abs_le _) (roundDouble_sub_abs_le _)
  generalize roundDouble (roundDouble (roundDouble (d * px) / w) + L) = c at h ⊢
  rw [abs_of_pos hW] at h
  have hn := abs_nonneg (px : ℚ)
  -- in units of the visible width
  have e : ((c - L) / W * w - px) * W = w * (c - (L + W * px / w)) := by
    field_simp
    ring
  have hQ : |(c - L) / W * w - px| * W
      ≤ w * (1 / 2 ^ 53 * (2 * (W * |(px : ℚ)| / w) + |L|) + 1 / 2 ^ 32 * (W * |(px : ℚ)| / w)) := by
    have : |(c - L) / W * w - px| * W = w * |c - (L + W * px / w)| := by
      have a1 : |(c - L) / W * w - px| * W = |((c - L) / W * w - px) * W| := by
        rw [abs_mul, abs_of_pos hW]
      rw [a1, e, abs_mul, abs_of_pos hw']
    rw [this]
    exact mul_le_mul_of_nonneg_left h hw'.le
  have e2 : w * (W * |(px : ℚ)| / w) = W * |(px : ℚ)| := by
    field_simp
  have hQ2 : |(c - L) / W * w - px| * W
      ≤ (1 / 2 ^ 31 * |(px : ℚ)| + 1 / 2 ^ 37 * w) * W := by
    have t1 : w * |L| ≤ w * (65536 * W) := mul_le_mul_of_nonneg_left hleft hw'.le
    have t2 : 0 ≤ W * |(px : ℚ)| := mul_nonneg hW.le hn
    have e3 : w * (1 / 2 ^ 53 * (2 * (W * |(px : ℚ)| / w) + |L|)
        + 1 / 2 ^ 32 * (W * |(px : ℚ)| / w))
        = 1 / 2 ^ 53 * (2 * (w * (W * |(px : ℚ)| / w)) + w * |L|)
          + 1 / 2 ^ 32 * (w * (W * |(px : ℚ)| / w)) := by ring
    rw [e3, e2] at hQ
    have e4 : (1 / 2 ^ 31 * |(px : ℚ)| + 1 / 2 ^ 37 * w) * W
        = 1 / 2 ^ 31 * (W * |(px : ℚ)|) + 1 / 2 ^ 37 * (w * W) := by ring
    rw [e4]
    have t3 : (1 : ℚ) / 2 ^ 53 * (w * (65536 * W)) = 1 / 2 ^ 37 * (w * W) := by
      norm_num
      ring
    have t4 : (1 : ℚ) / 2 ^ 53 * (2 * (W * |(px : ℚ)|)) + 1 / 2 ^ 32 * (W * |(px : ℚ)|)
        ≤ 1 / 2 ^ 31 * (W * |(px : ℚ)|) := by
      have : ((1 : ℚ) / 2 ^ 53 * 2 + 1 / 2 ^ 32) * (W * |(px : ℚ)|)
          ≤ 1 / 2 ^ 31 * (W * |(px : ℚ)|) := mul_le_mul_of_nonneg_right (by norm_num) t2
      linarith
    have t5 : (1 : ℚ) / 2 ^ 53 * (w * |L|) ≤ 1 / 2 ^ 53 * (w * (65536 * W)) :=
      mul_le_mul_of_nonneg_left t1 (by norm_num)
    linarith
  exact le_of_mul_le_mul_right hQ2 hW

/-- The exact widget position of the second double that `toScaleCoordinates` computes
for the pixel row `py` is within `2^-31 |py| + 2^-35 h` of `py`, for an origin within
65536 visible heights of 0. -/
theorem toScaleCoordinatesDouble_snd_error (s : Widget) (px py : Int) (x : ℚ)
    (hh : 0 < s.height) (hz : 0 < s.zoomCtx.zoomFactor)
    (hbottom : |s.zoomCtx.bottom|
      ≤ 65536 * ((s.height : ℚ) / s.zoomCtx.zoomFactor * ASPECT_RATIO)) :
    |(widgetPosition s x (toScaleCoordinatesDouble s px py).2).2 - py|
      ≤ 1 / 2 ^ 31 * |(py : ℚ)| + 1 / 2 ^ 35 * s.height := by
  have hh' : (0 : ℚ) < s.height := by exact_mod_cast hh
  have hG : (0 : ℚ) < (s.height : ℚ) / s.zoomCtx.zoomFactor := div_pos hh' hz
  have hr : ∀ q : ℚ, |roundDouble q - q| ≤ 1 / 2 ^ 53 * |q| := by
    intro q
    have := roundDouble_sub_abs_le q
    linarith
  unfold ASPECT_RATIO at hbottom
  simp only [widgetPosition, toScaleCoordinatesDouble, ASPECT_RATIO]
  generalize hGdef : (s.height : ℚ) / s.zoomCtx.zoomFactor = G at hG hbottom ⊢
  generalize hBdef : s.zoomCtx.bottom = B at hbottom ⊢
  have htop := visible_top_error G B (roundDouble G) (roundDouble (1 / 10))
    (roundDouble (roundDouble G * roundDouble (1 / 10)))
    (roundDouble (B + roundDouble (roundDouble G * roundDouble (1 / 10))))
    hG hbottom (roundDouble_sub_abs_le _) (roundDouble_sub_abs_le _)
    (roundDouble_sub_abs_le _) (roundDouble_sub_abs_le _)
  generalize hTdef : roundDouble (B + roundDouble (roundDouble G * roundDouble (1 / 10))) = T
    at htop ⊢
  have hH : (0 : ℚ) < G * (1 / 10) := by positivity
  generalize hHdef : G * (1 / 10) = H at htop hH hbottom ⊢
  generalize hhdef : (s.height : ℚ) = h at hh' ⊢
  have hτ := abs_le.mp htop
  have hD : B - (B + H) = -H := by ring
  rw [hD]
  have hDabs : |(-H)| = H := by rw [abs_neg, abs_of_pos hH]
  have hden : |roundDouble (B - T) - (-H)| ≤ 1 / 2 ^ 34 * |(-H)| := by
    rw [hDabs]
    have h1 := hr (B - T)
    have h2 : |B - T| ≤ H + 1 / 2 ^ 36 * H := by
      rw [abs_le]
      constructor <;> linarith [hτ.1, hτ.2]
    have h3 : roundDouble (B - T) - (-H) = (roundDouble (B - T) - (B - T)) - (T - (B + H)) := by
      ring
    rw [h3]
    have h4 := abs_sub (roundDouble (B - T) - (B - T)) (T - (B + H))
    have h5 : 1 / 2 ^ 53 * |B - T| ≤ 1 / 2 ^ 53 * (H + 1 / 2 ^ 36 * H) :=
      mul_le_mul_of_nonneg_left h2 (by norm_num)
    linarith
  generalize roundDouble (B - T) = d at hden ⊢
  have hs := scale_error (-H) d py h T (roundDouble (d * py))
    (roundDouble (roundDouble (d * py) / h))
    (roundDouble (roundDouble (roundDouble (d * py) / h) + T)) hh' hden
    (roundDouble_sub_abs_le _) (roundDouble_sub_abs_le _) (roundDouble_sub_abs_le _)
  generalize roundDouble (roundDouble (roundDouble (d * py) / h) + T) = c at hs ⊢
  rw [hDabs] at hs
  have hn := abs_nonneg (py : ℚ)
  have hTabs : |T| ≤ 65538 * H := by
    have hB := abs_le.mp hbottom
    rw [abs_le]
    constructor <;> linarith [hτ.1, hτ.2, hB.1, hB.2]
  have e : ((c - (B + H)) / -H * h - py) * H
      = -(h * ((c - (T + -H * py / h)) + (T - (B + H)))) := by
    have hHne : H ≠ 0 := hH.ne'
    have hhne : h ≠ 0 := hh'.ne'
    have e0 : (c - (B + H)) / -H = -(c - (B + H)) / H := by rw [div_neg, neg_div]
    rw [e0]
    field_simp
    ring
  have hQ : |(c - (B + H)) / -H * h - py| * H
      ≤ h * ((1 / 2 ^ 53 * (2 * (H * |(py : ℚ)| / h) + |T|) + 1 / 2 ^ 32 * (H * |(py : ℚ)| / h))
        + 1 / 2 ^ 36 * H) := by
    have : |(c - (B + H)) / -H * h - py| * H
        = h * |(c - (T + -H * py / h)) + (T - (B + H))| := by
      have a1 : |(c - (B + H)) / -H * h - py| * H = |((c - (B + H)) / -H * h - py) * H| := by
        rw [abs_mul, abs_of_pos hH]
      rw [a1, e, abs_neg, abs_mul, abs_of_pos hh']
    rw [this]
    exact mul_le_mul_of_nonneg_left (le_trans (abs_add _ _) (add_le_add hs htop)) hh'.le
  have e2 : h * (H * |(py : ℚ)| / h) = H * |(py : ℚ)| := by
    field_simp
  have hQ2 : |(c - (B + H)) / -H * h - py| * H
      ≤ (1 / 2 ^ 31 * |(py : ℚ)| + 1 / 2 ^ 35 * h) * H := by
    have t1 : h * |T| ≤ h * (65538 * H) := mul_le_mul_of_nonneg_left hTabs hh'.le
    have t2 : 0 ≤ H * |(py : ℚ)| := mul_nonneg hH.le hn
    have t6 : 0 ≤ h * H := mul_nonneg hh'.le hH.le
    have e3 : h * ((1 / 2 ^ 53 * (2 * (H * |(py : ℚ)| / h) + |T|)
        + 1 / 2 ^ 32 * (H * |(py : ℚ)| / h)) + 1 / 2 ^ 36 * H)
        = 1 / 2 ^ 53 * (2 * (h * (H * |(py : ℚ)| / h)) + h * |T|)
          + 1 / 2 ^ 32 * (h * (H * |(py : ℚ)| / h)) + 1 / 2 ^ 36 * (h * H) := by ring
    rw [e3, e2] at hQ
    have e4 : (1 / 2 ^ 31 * |(py : ℚ)| + 1 / 2 ^ 35 * h) * H
        = 1 / 2 ^ 31 * (H * |(py : ℚ)|) + 1 / 2 ^ 35 * (h * H) := by ring
    rw [e4]
    have t3 : (1 : ℚ) / 2 ^ 53 * (h * (65538 * H)) + 1 / 2 ^ 36 * (h * H)
        ≤ 1 / 2 ^ 35 * (h * H) := by
      have : ((1 : ℚ) / 2 ^ 53 * 65538 + 1 / 2 ^ 36) * (h * H) ≤ 1 / 2 ^ 35 * (h * H) :=
        mul_le_mul_of_nonneg_right (by norm_num) t6
      linarith
    have t4 : (1 : ℚ) / 2 ^ 53 * (2 * (H * |(py : ℚ)|)) + 1 / 2 ^ 32 * (H * |(py : ℚ)|)
        ≤ 1 / 2 ^ 31 * (H * |(py : ℚ)|) := by
      have : ((1 : ℚ) / 2 ^ 53 * 2 + 1 / 2 ^ 32) * (H * |(py : ℚ)|)
          ≤ 1 / 2 ^ 31 * (H * |(py : ℚ)|) := mul_le_mul_of_nonneg_right (by norm_num) t2
      linarith
    have t5 : (1 : ℚ) / 2 ^ 53 * (h * |T|) ≤ 1 / 2 ^ 53 * (h * (65538 * H)) :=
      mul_le_mul_of_nonneg_left t1 (by norm_num)
    linarith
  exact le_of_mul_le_mul_right hQ2 hH

/-- A pixel within 1.01 of the widget position of a domain point is mapped by
`toScaleCoordinates` to within 1.01 pixel of the point in exact arithmetic, and to within
`1 + 1/32` pixel of it as the program computes `toScaleCoordinates`, in doubles. -/
theorem toScaleCoordinates_near (s : Widget) (p q : Int) (x y : ℚ)
    (hw : 0 < s.width) (hw2 : s.width ≤ 16777216)
    (hh : 0 < s.height) (hh2 : s.height ≤ 16777216)
    (hz : 0 < s.zoomCtx.zoomFactor)
    (hleft : |s.zoomCtx.left| ≤ 65536 * ((s.width : ℚ) / s.zoomCtx.zoomFactor))
    (hbottom : |s.zoomCtx.bottom|
      ≤ 65536 * ((s.height : ℚ) / s.zoomCtx.zoomFactor * ASPECT_RATIO))
    (hx : |(widgetPosition s x y).1| ≤ 16777216)
    (hy : |(widgetPosition s x y).2| ≤ 16777216)
    (hp : |(p : ℚ) - (widgetPosition s x y).1| < 1 + 1 / 100)
    (hq : |(q : ℚ) - (widgetPosition s x y).2| < 1 + 1 / 100) :
    |(toScaleCoordinates s p q).1 - x| < (1 + 1 / 100) / s.zoomCtx.zoomFactor ∧
    |(toScaleCoordinates s p q).2 - y| < (1 + 1 / 100) * ASPECT_RATIO / s.zoomCtx.zoomFactor ∧
    |(toScaleCoordinatesDouble s p q).1 - x| < (1 + 1 / 32) / s.zoomCtx.zoomFactor ∧
    |(toScaleCoordinatesDouble s p q).2 - y|
        < (1 + 1 / 32) * ASPECT_RATIO / s.zoomCtx.zoomFactor := by
  have hw2' : (s.width : ℚ) ≤ 16777216 := by exact_mod_cast hw2
  have hh2' : (s.height : ℚ) ≤ 16777216 := by exact_mod_cast hh2
  have hAR : (0 : ℚ) < ASPECT_RATIO / s.zoomCtx.zoomFactor := by
    unfold ASPECT_RATIO
    positivity
  obtain ⟨sx, sy⟩ := toScaleCoordinates_sub s p q x y hw hh hz
  obtain ⟨dx, -⟩ := toScaleCoordinates_sub s p q (toScaleCoordinatesDouble s p q).1 y hw hh hz
  obtain ⟨-, dy⟩ := toScaleCoordinates_sub s p q x (toScaleCoordinatesDouble s p q).2 hw hh hz
  have fx := toScaleCoordinatesDouble_fst_error s p q y hw hz hleft
  have fy := toScaleCoordinatesDouble_snd_error s p q x hh hz hbottom
  -- the size of the pixel
  have bp : |(p : ℚ)| ≤ 16777218 := by
    have := abs_sub_abs_le_abs_sub (p : ℚ) (widgetPosition s x y).1
    linarith
  have bq : |(q : ℚ)| ≤ 16777218 := by
    have := abs_sub_abs_le_abs_sub (q : ℚ) (widgetPosition s x y).2
    linarith
  have fx1 : |(p : ℚ) - (widgetPosition s (toScaleCoordinatesDouble s p q).1 y).1| ≤ 1 / 64 := by
    rw [abs_sub_comm]
    have : 1 / 2 ^ 31 * |(p : ℚ)| ≤ 1 / 2 ^ 31 * 16777218 :=
      mul_le_mul_of_nonneg_left bp (by norm_num)
    linarith
  have fy1 : |(q : ℚ) - (widgetPosition s x (toScaleCoordinatesDouble s p q).2).2| ≤ 1 / 64 := by
    rw [abs_sub_comm]
    have : 1 / 2 ^ 31 * |(q : ℚ)| ≤ 1 / 2 ^ 31 * 16777218 :=
      mul_le_mul_of_nonneg_left bq (by norm_num)
    linarith
  refine ⟨?_, ?_, ?_, ?_⟩
  · rw [sx, abs_div, abs_of_pos hz]
    exact div_lt_div_of_pos_right hp hz
  · rw [sy, abs_neg, abs_mul, abs_of_pos hAR, mul_div_assoc]
    exact mul_lt_mul_of_pos_right hq hAR
  · have e : (toScaleCoordinatesDouble s p q).1 - x
        = ((p : ℚ) - (widgetPosition s x y).1) / s.zoomCtx.zoomFactor
          - ((p : ℚ) - (widgetPosition s (toScaleCoordinatesDouble s p q).1 y).1)
            / s.zoomCtx.zoomFactor := by
      rw [← sx, ← dx]
      ring
    rw [e, ← sub_div, abs_div, abs_of_pos hz]
    apply div_lt_div_of_pos_right _ hz
    have := abs_sub ((p : ℚ) - (widgetPosition s x y).1)
      ((p : ℚ) - (widgetPosition s (toScaleCoordinatesDouble s p q).1 y).1)
    linarith
  · have e : (toScaleCoordinatesDouble s p q).2 - y
        = -((((q : ℚ) - (widgetPosition s x y).2)
            - ((q : ℚ) - (widgetPosition s x (toScaleCoordinatesDouble s p q).2).2))
          * ( ASPECT_RATIO / s.zoomCtx.zoomFactor)) := by
      have : (toScaleCoordinatesDouble s p q).2 - y
          = ((toScaleCoordinates s p q).2 - y)
            - ((toScaleCoordinates s p q).2 - (toScaleCoordinatesDouble s p q).2) := by ring
      rw [this, sy, dy]
      ring
    rw [e, abs_neg, abs_mul, abs_of_pos hAR, mul_div_assoc]
    apply mul_lt_mul_of_pos_right _ hAR
    have := abs_sub ((q : ℚ) - (widgetPosition s x y).2)
      ((q : ℚ) - (widgetPosition s x (toScaleCoordinatesDouble s p q).2).2)
    linarith

/-- The zoom factor that `centerOn` writes: the value of the branch taken, unclamped. -/
theorem centerOn_zoomFactor (s : Widget) (xmin xmax ymin ymax : ℚ) :
    (centerOn s xmin xmax ymin ymax).zoomCtx.zoomFactor
      = (if (s.width : ℚ) / (s.height * ASPECT_RATIO) < (xmax - xmin) / (ymax - ymin)
         then (s.width : ℚ) / (xmax - xmin)
         else s.height * ASPECT_RATIO / (ymax - ymin)) := by
  simp only [centerOn]
  split_ifs <;> rfl

/-- The rounding in `toWidgetCoordinates` decides the pixel: on the sample widget the
domain point (10, 8.2), 8.2 being the double nearest to 41/5, whose exact widget position
is just above (10, 918), is mapped to the pixel (10, 917); the double that is cast is
`918 - 2^-43`. -/
theorem sample_projection_row :
    roundDouble (41 / 5) = 2308094809027379 / 281474976710656 ∧
    toWidgetCoordinates sampleWidget 10 (roundDouble (41 / 5)) = (10, 917) := by
  have r1 : roundDouble (41 / 5 : ℚ) = (2308094809027379 / 281474976710656 : ℚ) := by
    rw [roundDouble_eq_of (41 / 5 : ℚ) 3 4616189618054758
      (by rw [abs_of_pos (by norm_num)]; norm_num)
      (by rw [abs_of_pos (by norm_num)]; norm_num)
      (by rw [abs_lt]; constructor <;> norm_num)]
    norm_num
  have r2 : roundDouble (1000 : ℚ) = (1000 : ℚ) := by
    rw [roundDouble_eq_of (1000 : ℚ) 9 8796093022208000
      (by rw [abs_of_pos (by norm_num)]; norm_num)
      (by rw [abs_of_pos (by norm_num)]; norm_num)
      (by rw [abs_lt]; constructor <;> norm_num)]
    norm_num
  have r3 : roundDouble (1 / 10 : ℚ) = (3602879701896397 / 36028797018963968 : ℚ) := by
    rw [roundDouble_eq_of (1 / 10 : ℚ) (-4) 7205759403792794
      (by rw [abs_of_pos (by norm_num)]; norm_num)
      (by rw [abs_of_pos (by norm_num)]; norm_num)
      (by rw [abs_lt]; constructor <;> norm_num)]
    norm_num
  have r4 : roundDouble (450359962737049625 / 4503599627370496 : ℚ) = (100 : ℚ) := by
    rw [roundDouble_eq_of (450359962737049625 / 4503599627370496 : ℚ) 6 7036874417766400
      (by rw [abs_of_pos (by norm_num)]; norm_num)
      (by rw [abs_of_pos (by norm_num)]; norm_num)
      (by rw [abs_lt]; constructor <;> norm_num)]
    norm_num
  have r5 : roundDouble (100 : ℚ) = (100 : ℚ) := by
    rw [roundDouble_eq_of (100 : ℚ) 6 7036874417766400
      (by rw [abs_of_pos (by norm_num)]; norm_num)
      (by rw [abs_of_pos (by norm_num)]; norm_num)
      (by rw [abs_lt]; constructor <;> norm_num)]
    norm_num
  have r6 : roundDouble (10 : ℚ) = (10 : ℚ) := by
    rw [roundDouble_eq_of (10 : ℚ) 3 5629499534213120
      (by rw [abs_of_pos (by norm_num)]; norm_num)
      (by rw [abs_of_pos (by norm_num)]; norm_num)
      (by rw [abs_lt]; constructor <;> norm_num)]
    norm_num
  have r7 : roundDouble (1 / 100 : ℚ) = (5764607523034235 / 576460752303423488 : ℚ) := by
    rw [roundDouble_eq_of (1 / 100 : ℚ) (-7) 5764607523034235
      (by rw [abs_of_pos (by norm_num)]; norm_num)
      (by rw [abs_of_pos (by norm_num)]; norm_num)
      (by rw [abs_lt]; constructor <;> norm_num)]
    norm_num
  have r8 : roundDouble (720575940379279375 / 72057594037927936 : ℚ) = (10 : ℚ) := by
    rw [roundDouble_eq_of (720575940379279375 / 72057594037927936 : ℚ) 3 5629499534213120
      (by rw [abs_of_pos (by norm_num)]; norm_num)
      (by rw [abs_of_pos (by norm_num)]; norm_num)
      (by rw [abs_lt]; constructor <;> norm_num)]
    norm_num
  have r9 : roundDouble (-(25839402862038221 / 281474976710656) : ℚ) = (-(6459850715509555 / 70368744177664) : ℚ) := by
    rw [roundDouble_eq_of (-(25839402862038221 / 281474976710656) : ℚ) 6 (-6459850715509555)
      (by rw [abs_of_neg (by norm_num)]; norm_num)
      (by rw [abs_of_neg (by norm_num)]; norm_num)
      (by rw [abs_lt]; constructor <;> norm_num)]
    norm_num
  have r10 : roundDouble (-100 : ℚ) = (-100 : ℚ) := by
    rw [roundDouble_eq_of (-100 : ℚ) 6 (-7036874417766400)
      (by rw [abs_of_neg (by norm_num)]; norm_num)
      (by rw [abs_of_neg (by norm_num)]; norm_num)
      (by rw [abs_lt]; constructor <;> norm_num)]
    norm_num
  have r11 : roundDouble (1291970143101911 / 1407374883553280 : ℚ) = (4134304457926115 / 4503599627370496 : ℚ) := by
    rw [roundDouble_eq_of (1291970143101911 / 1407374883553280 : ℚ) (-1) 8268608915852230
      (by rw [abs_of_pos (by norm_num)]; norm_num)
      (by rw [abs_of_pos (by norm_num)]; norm_num)
      (by rw [abs_lt]; constructor <;> norm_num)]
    norm_num
  have r12 : roundDouble (516788057240764375 / 562949953421312 : ℚ) = (8074813394386943 / 8796093022208 : ℚ) := by
    rw [roundDouble_eq_of (516788057240764375 / 562949953421312 : ℚ) 9 8074813394386943
      (by rw [abs_of_pos (by norm_num)]; norm_num)
      (by rw [abs_of_pos (by norm_num)]; norm_num)
      (by rw [abs_lt]; constructor <;> norm_num)]
    norm_num
  have t1 : toInt (10 : ℚ) = 10 :=
    toInt_eq_of _ _ (truncate_eq_of_nonneg _ 10 (by norm_num) (by norm_num) (by norm_num))
      (by norm_num) (by norm_num)
  have t2 : toInt (8074813394386943 / 8796093022208 : ℚ) = 917 :=
    toInt_eq_of _ _ (truncate_eq_of_nonneg _ 917 (by norm_num) (by norm_num) (by norm_num))
      (by norm_num) (by norm_num)
  refine ⟨r1, ?_⟩
  rw [r1]
  simp only [toWidgetCoordinates, sampleWidget, ASPECT_RATIO]
  norm_num [r1, r2, r3, r4, r5, r6, r7, r8, r9, r10, r11, r12, t1, t2]

/-! ## Theorems -/

/-- C2: zoom anchor invariant.  For a widget of positive width and height and a
positive zoom factor, the domain point under the pointer pixel is the same after
`wheelEvent` as before it, for every wheel delta and orientation and every value of
the zoom step constant, whatever the clamped new zoom factor is. -/
theorem c2_wheelEvent_anchor (zoomPerDelta : ℚ) (s : Widget) (vertical : Bool)
    (delta px py : Int)
    (hw : 0 < s.width) (hh : 0 < s.height) (hz : 0 < s.zoomCtx.zoomFactor) :
    toScaleCoordinates (wheelEvent zoomPerDelta s vertical delta px py) px py
      = toScaleCoordinates s px py := by
  have hw' : (s.width : ℚ) ≠ 0 := by exact_mod_cast hw.ne'
  have hh' : (s.height : ℚ) ≠ 0 := by exact_mod_cast hh.ne'
  have hz' := hz.ne'
  cases vertical
  · simp [wheelEvent]
  · simp only [wheelEvent, Bool.not_true, Bool.false_eq_true, if_false]
    generalize hn : (if delta > 0 then s.zoomCtx.zoomFactor * zoomPerDelta ^ delta.toNat
      else s.zoomCtx.zoomFactor / zoomPerDelta ^ (-delta).toNat) = n
    generalize hc : (if n ≤ 1 / 100 then (1 / 100 : ℚ) else if n > 1024 then 1024 else n) = c
    have hcpos : c ≠ 0 := by
      have : (0 : ℚ) < c := by
        rw [← hc]
        split_ifs with h1 h2
        · norm_num
        · norm_num
        · push_neg at h1
          linarith
      exact this.ne'
    simp only [toScaleCoordinates, ASPECT_RATIO]
    ext
    · simp only
      field_simp
      ring
    · simp only
      field_simp
      ring

/-- Instance of C2 on the sample widget: one wheel click at pixel (250, 700). -/
theorem c2_wheelEvent_anchor_witness :
    toScaleCoordinates (wheelEvent (100152 / 100000) sampleWidget true 120 250 700) 250 700
      = toScaleCoordinates sampleWidget 250 700 :=
  c2_wheelEvent_anchor (100152 / 100000) sampleWidget true 120 250 700 (by decide) (by decide)
    (by norm_num [sampleWidget])

/-- C3: key frame drag preserves ordering.  In `DRAGGING_KEYS` state, if every selection
entry names a registered curve view and one of its key frames, a key frame of the curve
view `c` being selected through a view with the key frames of `c`, and the key frame
times of `c` are strictly increasing, then `mouseMoveEvent` returns a state, for every
pointer position and every axis lock, and in it the key frame times of `c` are strictly
increasing; the curve list and the selection are unchanged. -/
theorem c3_drag_preserves_order (s : Widget) (x y : Int) (c : CurveGui)
    (hstate : s.state = EventState.DRAGGING_KEYS)
    (hwf : ∀ it ∈ s.selectedKeyFrames, EntryWellFormed s.curves c it)
    (hs : StrictlyIncreasing s.keyFrames c) :
    ∃ s', mouseMoveEvent s x y = some s' ∧ StrictlyIncreasing s'.keyFrames c ∧
      s'.curves = s.curves ∧ s'.selectedKeyFrames = s.selectedKeyFrames := by
  unfold mouseMoveEvent
  simp only [hstate]
  obtain ⟨kf', h, hs'⟩ := dragSelectedKeys_strictlyIncreasing s.curves
    (if s.mustSetDragOrientation then
      if |x - s.zoomCtx.oldClick.1| > |y - s.zoomCtx.oldClick.2| then (1, 0) else (0, 1)
    else s.mouseDragOrientation)
    (toScaleCoordinates s x y) _ c s.selectedKeyFrames s.keyFrames hwf hs
  rw [h]
  exact ⟨_, rfl, hs', rfl, rfl⟩

/-- Instance of C3: in the scenario widget, dragging the selected key frame (t=10, v=5) of
curve A horizontally from pixel (10, 950) to pixel (20, 950) yields a state in which the
key frame times of curve A are strictly increasing. -/
theorem c3_drag_preserves_order_witness :
    ∃ s', mouseMoveEvent draggingScenarioWidget 20 950 = some s' ∧
      StrictlyIncreasing s'.keyFrames curveA ∧
      s'.curves = draggingScenarioWidget.curves ∧
      s'.selectedKeyFrames = draggingScenarioWidget.selectedKeyFrames :=
  c3_drag_preserves_order draggingScenarioWidget 20 950 curveA rfl
    (by
      intro it hit
      have e : it = (100, 1) := by
        simpa [draggingScenarioWidget, selectedScenarioWidget] using hit
      subst e
      exact ⟨curveA, rfl, by simp [curveA], fun _ => rfl⟩)
    (by
      simp [StrictlyIncreasing, keyTimes, curveA, draggingScenarioWidget,
        selectedScenarioWidget, scenarioWidget])

/-- C4: `centerOn` makes the target fully visible.  For a widget of positive width and
height and a rectangle with `xmin < xmax` and `ymin < ymax`, the visible domain
rectangle after `centerOn xmin xmax ymin ymax` contains `[xmin, xmax] x [ymin, ymax]`. -/
theorem c4_centerOn_contains (s : Widget) (xmin xmax ymin ymax : ℚ)
    (hw : 0 < s.width) (hh : 0 < s.height) (hx : xmin < xmax) (hy : ymin < ymax) :
    (visibleRect (centerOn s xmin xmax ymin ymax)).1 ≤ xmin ∧
    xmax ≤ (visibleRect (centerOn s xmin xmax ymin ymax)).2.1 ∧
    (visibleRect (centerOn s xmin xmax ymin ymax)).2.2.1 ≤ ymin ∧
    ymax ≤ (visibleRect (centerOn s xmin xmax ymin ymax)).2.2.2 := by
  have hw' : (0 : ℚ) < s.width := by exact_mod_cast hw
  have hh' : (0 : ℚ) < s.height := by exact_mod_cast hh
  have hcw : 0 < xmax - xmin := sub_pos.mpr hx
  have hch : 0 < ymax - ymin := sub_pos.mpr hy
  have hh10 : (0 : ℚ) < s.height * (1 / 10) := by positivity
  unfold centerOn visibleRect ASPECT_RATIO
  by_cases hc : (s.width : ℚ) / (s.height * (1 / 10)) < (xmax - xmin) / (ymax - ymin)
  · rw [if_pos hc]
    rw [div_lt_div_iff₀ hh10 hch] at hc
    have e1 : (s.width : ℚ) / ((s.width : ℚ) / (xmax - xmin)) = xmax - xmin := by
      field_simp
    have e2 : (s.height : ℚ) / ((s.width : ℚ) / (xmax - xmin)) * (1 / 10)
        = (s.height * (1 / 10)) / s.width * (xmax - xmin) := by
      field_simp
      ring
    have key : ymax - ymin ≤ (s.height * (1 / 10)) / s.width * (xmax - xmin) := by
      rw [div_mul_eq_mul_div, le_div_iff₀ hw']
      linarith
    simp only
    rw [e1, e2]
    refine ⟨le_refl _, by linarith, by linarith, by linarith⟩
  · rw [if_neg hc]
    rw [div_lt_div_iff₀ hh10 hch, not_lt] at hc
    have e1 : (s.height : ℚ) / ((s.height * (1 / 10)) / (ymax - ymin)) * (1 / 10)
        = ymax - ymin := by
      field_simp
    have e2 : (s.width : ℚ) / ((s.height * (1 / 10)) / (ymax - ymin))
        = s.width / (s.height * (1 / 10)) * (ymax - ymin) := by
      field_simp
      ring
    have key : xmax - xmin ≤ s.width / (s.height * (1 / 10)) * (ymax - ymin) := by
      rw [div_mul_eq_mul_div, le_div_iff₀ hh10]
      linarith
    simp only
    rw [e1, e2]
    refine ⟨by linarith, by linarith, le_refl _, by linarith⟩

/-- Instance of C4, the scenario of the specification: after `centerOn([A])` for the
curve A with key frames (0, 0) and (10, 5), the visible domain rectangle contains
`[0, 10] x [0, 5]` expanded by 10% on each side, that is `[-1, 11] x [-1/2, 11/2]`. -/
theorem c4_centerOn_contains_witness :
    (visibleRect (centerOnCurves scenarioWidget [curveA])).1 ≤ -1 ∧
    11 ≤ (visibleRect (centerOnCurves scenarioWidget [curveA])).2.1 ∧
    (visibleRect (centerOnCurves scenarioWidget [curveA])).2.2.1 ≤ -1 / 2 ∧
    11 / 2 ≤ (visibleRect (centerOnCurves scenarioWidget [curveA])).2.2.2 := by
  have h := c4_centerOn_contains scenarioWidget (-1) (111 / 10) (-1 / 2) (111 / 20)
    (by decide) (by decide) (by norm_num) (by norm_num)
  simp only [centerOnCurves, centerOnCurvesArgs_scenario]
  obtain ⟨h1, h2, h3, h4⟩ := h
  refine ⟨h1, ?_, h3, ?_⟩
  · linarith
  · linarith

/-- C5: key frame hit test.  `isNearbyKeyFrame` returns the first key frame, curve views
in registration order and key frames in curve order, of a visible curve view whose
projected pixel position is less than 5 pixels from the pointer in x and in y, and the
null pair when there is none.  It returns the null pair whenever the pointer is more
than 5 pixels away, in x or in y, from the projected position of every key frame of
every visible curve view, and a pair it returns is a key frame of a registered visible
curve view. -/
theorem c5_isNearbyKeyFrame (s : Widget) (pt : Int × Int) :
    isNearbyKeyFrame s pt
      = (visibleKeyFrames s).find? (fun e => decide
          (|pt.1 - (toWidgetCoordinates s (s.keyFrames e.2).time (s.keyFrames e.2).value).1| < 5
          ∧ |pt.2 - (toWidgetCoordinates s (s.keyFrames e.2).time (s.keyFrames e.2).value).2| < 5))
    ∧ ((∀ c ∈ s.curves, c.visible = true → ∀ k ∈ c.keys,
          |pt.1 - (toWidgetCoordinates s (s.keyFrames k).time (s.keyFrames k).value).1| > 5
          ∨ |pt.2 - (toWidgetCoordinates s (s.keyFrames k).time (s.keyFrames k).value).2| > 5)
        → isNearbyKeyFrame s pt = none)
    ∧ (∀ curve key, isNearbyKeyFrame s pt = some (curve, key) →
        ∃ c ∈ s.curves, c.ptr = curve ∧ c.visible = true ∧ key ∈ c.keys) := by
  have hfind : isNearbyKeyFrame s pt
      = (visibleKeyFrames s).find? (fun e => keyFrameAccepted s pt e.2) :=
    isNearbyKeyFrameCurves_eq_find s pt s.curves
  refine ⟨?_, ?_, ?_⟩
  · rw [hfind]
    congr 1
    funext e
    rw [Bool.eq_iff_iff, keyFrameAccepted_iff, decide_eq_true_eq]
  · intro hfar
    rw [hfind, List.find?_eq_none]
    intro e he
    simp only [visibleKeyFrames, List.mem_flatMap, List.mem_filter, List.mem_map] at he
    obtain ⟨c, ⟨hc, hv⟩, k, hk, rfl⟩ := he
    rw [Bool.not_eq_true, ← Bool.not_eq_true, keyFrameAccepted_iff]
    rintro ⟨hx, hy⟩
    rcases hfar c hc hv k hk with h | h
    · exact absurd hx (not_lt.mpr h.le)
    · exact absurd hy (not_lt.mpr h.le)
  · intro curve key hres
    rw [hfind] at hres
    have hmem := List.mem_of_find?_eq_some hres
    simp only [visibleKeyFrames, List.mem_flatMap, List.mem_filter, List.mem_map] at hmem
    obtain ⟨c, ⟨hc, hv⟩, k, hk, he⟩ := hmem
    simp only [Prod.mk.injEq] at he
    exact ⟨c, hc, he.1, hv, he.2 ▸ hk⟩

/-- Instance of C5 on the scenario widget, whose key frames project to the pixels
(0, 1000) and (10, 950): the pointer at (500, 500) finds no key frame. -/
theorem c5_isNearbyKeyFrame_witness :
    isNearbyKeyFrame scenarioWidget (500, 500) = none :=
  (c5_isNearbyKeyFrame scenarioWidget (500, 500)).2.1 (by
    intro c hc _ k hk
    have hc' : c = curveA := by simpa [scenarioWidget] using hc
    subst hc'
    have hk' : k = 0 ∨ k = 1 := by simpa [curveA] using hk
    rcases hk' with rfl | rfl
    · rw [scenario_projections.1]
      left
      decide
    · rw [scenario_projections.2]
      left
      decide)

/-- C6: `removeCurve`.  In a state whose selection holds each key frame at most once and
whose curve views have distinct addresses, `removeCurve` on a registered curve view `c`
removes `c` from the curve list, keeps the other curve views in their order, removes
exactly the selection entries whose key frame is one of the key frames of `c`, keeps the
other entries in their order, and a second `removeCurve` on the same handle changes
nothing.  `removeCurve` on a handle that is not registered leaves the state unchanged. -/
theorem c6_removeCurve (s : Widget) :
    (∀ c ∈ s.curves, (s.selectedKeyFrames.map Prod.snd).Nodup →
      (s.curves.map CurveGui.ptr).Nodup →
      (removeCurve s c.ptr).curves = s.curves.filter (fun c' => decide (c'.ptr ≠ c.ptr)) ∧
      c ∉ (removeCurve s c.ptr).curves ∧
      (removeCurve s c.ptr).selectedKeyFrames
        = s.selectedKeyFrames.filter (fun e => decide (e.2 ∉ c.keys)) ∧
      (∀ e ∈ (removeCurve s c.ptr).selectedKeyFrames, e.2 ∉ c.keys) ∧
      removeCurve (removeCurve s c.ptr) c.ptr = removeCurve s c.ptr) ∧
    (∀ curve, (∀ c ∈ s.curves, c.ptr ≠ curve) → removeCurve s curve = s) := by
  have absent : ∀ (t : Widget) (curve : Nat), (∀ c ∈ t.curves, c.ptr ≠ curve) →
      removeCurve t curve = t := by
    intro t curve h
    simp only [removeCurve, removeCurveLoop_absent curve t.selectedKeyFrames t.curves h]
  refine ⟨?_, absent s⟩
  intro c hc hu hp
  have hloop := removeCurveLoop_registered c s.selectedKeyFrames s.curves hc hp
  have hcurves : (removeCurve s c.ptr).curves
      = s.curves.filter (fun c' => decide (c'.ptr ≠ c.ptr)) := by
    simp only [removeCurve, hloop]
  have hsel : (removeCurve s c.ptr).selectedKeyFrames
      = s.selectedKeyFrames.filter (fun e => decide (e.2 ∉ c.keys)) := by
    simp only [removeCurve, hloop, foldl_eraseSelectedKey_eq_filter c.keys _ hu]
  refine ⟨hcurves, ?_, hsel, ?_, ?_⟩
  · rw [hcurves, List.mem_filter]
    rintro ⟨_, h⟩
    simp at h
  · intro e he
    rw [hsel, List.mem_filter] at he
    simpa using he.2
  · apply absent
    intro c' hc'
    rw [hcurves, List.mem_filter] at hc'
    simpa using hc'.2

/-- Instance of C6: removing curve A from the scenario widget in which its key frame
(t=10, v=5) is selected leaves no curve view and no selection entry. -/
theorem c6_removeCurve_witness :
    (removeCurve selectedScenarioWidget curveA.ptr).curves = [] ∧
    (removeCurve selectedScenarioWidget curveA.ptr).selectedKeyFrames = [] := by
  have h := (c6_removeCurve selectedScenarioWidget).1 curveA
    (by simp [selectedScenarioWidget, scenarioWidget])
    (by simp [selectedScenarioWidget])
    (by simp [selectedScenarioWidget, scenarioWidget])
  refine ⟨?_, ?_⟩
  · rw [h.1]
    simp [selectedScenarioWidget, scenarioWidget]
  · rw [h.2.2.1]
    simp [selectedScenarioWidget, curveA]

/-- C7: curve colour assignment.  On a freshly constructed widget, for every sequence of
`createCurve` and `removeCurve` calls, the k-th curve view created (counting from 0,
removals not counting) receives the HSV colour with hue `(200 + 60 * k) mod 360`,
saturation 255 and value 255. -/
theorem c7_curve_colours (width height : Int) (zoomCtx : ZoomContext)
    (keyFrames : Nat → KeyFrame) (ops : List RegistryOp) :
    assignedColors (Widget.new width height zoomCtx keyFrames) ops
      = (List.range (createCount ops)).map fun (k : Nat) =>
          ({ hsvHue := (200 + 60 * (k : Int)) % 360, hsvSaturation := 255, value := 255 }
            : QColor) := by
  have h := assignedColors_from ops (Widget.new width height zoomCtx keyFrames) 0
    (by simp [Widget.new, QColor.setHsv])
  simpa using h

/-- C8, as stated, fails: on the sample widget (1000 x 1000 pixels, zoom factor 1)
`centerOn 0 (1/10) 0 (1/1000)` sets the zoom factor to 10000, and `resizeGL` on a widget of
1 x 1 pixel with zoom factor 1 sets it to 1/510. -/
theorem c8_zoom_range_counterexample :
    ZoomInRange sampleWidget.zoomCtx.zoomFactor ∧
    (centerOn sampleWidget 0 (1 / 10) 0 (1 / 1000)).zoomCtx.zoomFactor = 10000 ∧
    ¬ ZoomInRange (centerOn sampleWidget 0 (1 / 10) 0 (1 / 1000)).zoomCtx.zoomFactor ∧
    ZoomInRange tinyWidget.zoomCtx.zoomFactor ∧
    (resizeGL tinyWidget 1 1).zoomCtx.zoomFactor = 1 / 510 ∧
    ¬ ZoomInRange (resizeGL tinyWidget 1 1).zoomCtx.zoomFactor := by
  have e1 : (centerOn sampleWidget 0 (1 / 10) 0 (1 / 1000)).zoomCtx.zoomFactor = 10000 := by
    simp only [centerOn, sampleWidget, ASPECT_RATIO]
    norm_num
  have e2 : (resizeGL tinyWidget 1 1).zoomCtx.zoomFactor = 1 / 510 := by
    simp only [resizeGL, centerOn, tinyWidget, sampleWidget, ASPECT_RATIO]
    norm_num
  refine ⟨by norm_num [ZoomInRange, sampleWidget], e1, ?_,
    by norm_num [ZoomInRange, tinyWidget, sampleWidget], e2, ?_⟩
  · rw [e1]
    norm_num [ZoomInRange]
  · rw [e2]
    norm_num [ZoomInRange]

/-- C8, amended: from a zoom factor in `[0.01, 1024]`, `wheelEvent` leaves the zoom factor
in `[0.01, 1024]` and a view pan (`mouseMoveEvent` in `DRAGGING_VIEW` state) leaves it
unchanged.  In a widget of positive width `w` and height `h`, `centerOn` on a rectangle
with `xmin < xmax` and `ymin < ymax` sets the zoom factor to `w / (xmax - xmin)` when
`w / (h * ASPECT_RATIO) < (xmax - xmin) / (ymax - ymin)` and to
`h * ASPECT_RATIO / (ymax - ymin)` otherwise; `centerOn` on curves does so for the
rectangle with margins of the curves, when it is of that kind; `resizeGL` sets it to
`w / 510` when `w / (h * ASPECT_RATIO) < 510 / 20` and to `h * ASPECT_RATIO / 20`
otherwise.  These values are positive; they are written without a clamp, whatever the
zoom factor was before. -/
theorem c8_zoom_factor_after (s : Widget) :
    (∀ (zoomPerDelta : ℚ) (vertical : Bool) (delta x y : Int),
      ZoomInRange s.zoomCtx.zoomFactor →
      ZoomInRange (wheelEvent zoomPerDelta s vertical delta x y).zoomCtx.zoomFactor) ∧
    (∀ x y : Int, s.state = EventState.DRAGGING_VIEW →
      ∃ s', mouseMoveEvent s x y = some s' ∧ s'.zoomCtx.zoomFactor = s.zoomCtx.zoomFactor) ∧
    (∀ xmin xmax ymin ymax : ℚ, 0 < s.width → 0 < s.height → xmin < xmax → ymin < ymax →
      (centerOn s xmin xmax ymin ymax).zoomCtx.zoomFactor
        = (if (s.width : ℚ) / (s.height * ASPECT_RATIO) < (xmax - xmin) / (ymax - ymin)
           then (s.width : ℚ) / (xmax - xmin)
           else s.height * ASPECT_RATIO / (ymax - ymin)) ∧
      0 < (centerOn s xmin xmax ymin ymax).zoomCtx.zoomFactor) ∧
    (∀ curves : List CurveGui, 0 < s.width → 0 < s.height →
      (centerOnCurvesArgs s curves).1 < (centerOnCurvesArgs s curves).2.1 →
      (centerOnCurvesArgs s curves).2.2.1 < (centerOnCurvesArgs s curves).2.2.2 →
      (centerOnCurves s curves).zoomCtx.zoomFactor
        = (if (s.width : ℚ) / (s.height * ASPECT_RATIO)
              < ((centerOnCurvesArgs s curves).2.1 - (centerOnCurvesArgs s curves).1)
                / ((centerOnCurvesArgs s curves).2.2.2 - (centerOnCurvesArgs s curves).2.2.1)
           then (s.width : ℚ)
              / ((centerOnCurvesArgs s curves).2.1 - (centerOnCurvesArgs s curves).1)
           else s.height * ASPECT_RATIO
              / ((centerOnCurvesArgs s curves).2.2.2 - (centerOnCurvesArgs s curves).2.2.1)) ∧
      0 < (centerOnCurves s curves).zoomCtx.zoomFactor) ∧
    (∀ width height : Int, 0 < s.width → 0 < s.height →
      (resizeGL s width height).zoomCtx.zoomFactor
        = (if (s.width : ℚ) / (s.height * ASPECT_RATIO) < 510 / 20
           then (s.width : ℚ) / 510
           else s.height * ASPECT_RATIO / 20) ∧
      0 < (resizeGL s width height).zoomCtx.zoomFactor) := by
  refine ⟨?_, ?_, ?_, ?_, ?_⟩
  · intro zoomPerDelta vertical delta x y hz
    cases vertical
    · simpa [wheelEvent] using hz
    · simp only [wheelEvent, Bool.not_true, Bool.false_eq_true, if_false, ZoomInRange]
      generalize (if delta > 0 then s.zoomCtx.zoomFactor * zoomPerDelta ^ delta.toNat
        else s.zoomCtx.zoomFactor / zoomPerDelta ^ (-delta).toNat) = n
      split_ifs with h1 h2
      · norm_num
      · norm_num
      · exact ⟨le_of_lt (not_le.mp h1), not_lt.mp h2⟩
  · intro x y hstate
    unfold mouseMoveEvent
    simp only [hstate]
    exact ⟨_, rfl, rfl⟩
  · intro xmin xmax ymin ymax hw hh hx hy
    exact ⟨centerOn_zoomFactor s xmin xmax ymin ymax,
      centerOn_zoomFactor_pos s xmin xmax ymin ymax hw hh hx hy⟩
  · intro curves hw hh hx hy
    exact ⟨centerOn_zoomFactor s _ _ _ _, centerOn_zoomFactor_pos s _ _ _ _ hw hh hx hy⟩
  · intro width height hw hh
    refine ⟨?_, centerOn_zoomFactor_pos s _ _ _ _ hw hh (by norm_num) (by norm_num)⟩
    have e := centerOn_zoomFactor s (-10) 500 (-10) 10
    have e1 : (500 : ℚ) - -10 = 510 := by norm_num
    have e2 : (10 : ℚ) - -10 = 20 := by norm_num
    rw [e1, e2] at e
    exact e

/-- Instance of the amended C8 on the sample widget (1000 x 1000 pixels): one wheel click
at pixel (250, 700) leaves the zoom factor in `[0.01, 1024]`, and `centerOn` on the
rectangle `[0, 1/10] x [0, 1/1000]` sets the zoom factor to the value of the first branch,
`1000 / (1/10 - 0)`, which is 10000. -/
theorem c8_zoom_factor_after_witness :
    ZoomInRange
      (wheelEvent (100152 / 100000) sampleWidget true 120 250 700).zoomCtx.zoomFactor ∧
    (0 < sampleWidget.width ∧ 0 < sampleWidget.height ∧ (0 : ℚ) < 1 / 10 ∧
      (0 : ℚ) < 1 / 1000) ∧
    ((centerOn sampleWidget 0 (1 / 10) 0 (1 / 1000)).zoomCtx.zoomFactor
        = (if (sampleWidget.width : ℚ) / (sampleWidget.height * ASPECT_RATIO)
              < (1 / 10 - 0) / (1 / 1000 - 0)
           then (sampleWidget.width : ℚ) / (1 / 10 - 0)
           else sampleWidget.height * ASPECT_RATIO / (1 / 1000 - 0)) ∧
      0 < (centerOn sampleWidget 0 (1 / 10) 0 (1 / 1000)).zoomCtx.zoomFactor) :=
  ⟨(c8_zoom_factor_after sampleWidget).1 (100152 / 100000) true 120 250 700
      (by norm_num [ZoomInRange, sampleWidget]),
    ⟨by decide, by decide, by norm_num, by norm_num⟩,
    (c8_zoom_factor_after sampleWidget).2.2.1 0 (1 / 10) 0 (1 / 1000) (by decide) (by decide)
      (by norm_num) (by norm_num)⟩

/-- C9, as stated, fails on the program: on the sample widget (1000 x 1000 pixels, zoom
factor 1, origin (0, 0)) `toWidgetCoordinates` maps the domain point (1/2, 0) to the pixel
(0, 1000), and `toScaleCoordinates` maps that pixel to the domain point (0, 0), in doubles
as in exact arithmetic.  Far from the origin the cast to `int` overflows: the domain point
(3000000000, 0) is mapped to the pixel (-2147483648, 1000). -/
theorem c9_domain_round_trip_counterexample :
    0 < sampleWidget.width ∧ 0 < sampleWidget.height ∧
    1 / 100 ≤ sampleWidget.zoomCtx.zoomFactor ∧ sampleWidget.zoomCtx.zoomFactor ≤ 1024 ∧
    toWidgetCoordinates sampleWidget (1 / 2) 0 = (0, 1000) ∧
    toScaleCoordinatesDouble sampleWidget 0 1000 = (0, 0) ∧
    toScaleCoordinates sampleWidget (toWidgetCoordinates sampleWidget (1 / 2) 0).1
      (toWidgetCoordinates sampleWidget (1 / 2) 0).2 ≠ (1 / 2, 0) ∧
    toWidgetCoordinates sampleWidget 3000000000 0 = (-2147483648, 1000) := by
  have r1 : roundDouble (1000 : ℚ) = (1000 : ℚ) := by
    rw [roundDouble_eq_of (1000 : ℚ) 9 8796093022208000
      (by rw [abs_of_pos (by norm_num)]; norm_num)
      (by rw [abs_of_pos (by norm_num)]; norm_num)
      (by rw [abs_lt]; constructor <;> norm_num)]
    norm_num
  have r2 : roundDouble (1 / 10 : ℚ) = (3602879701896397 / 36028797018963968 : ℚ) := by
    rw [roundDouble_eq_of (1 / 10 : ℚ) (-4) 7205759403792794
      (by rw [abs_of_pos (by norm_num)]; norm_num)
      (by rw [abs_of_pos (by norm_num)]; norm_num)
      (by rw [abs_lt]; constructor <;> norm_num)]
    norm_num
  have r3 : roundDouble (450359962737049625 / 4503599627370496 : ℚ) = (100 : ℚ) := by
    rw [roundDouble_eq_of (450359962737049625 / 4503599627370496 : ℚ) 6 7036874417766400
      (by rw [abs_of_pos (by norm_num)]; norm_num)
      (by rw [abs_of_pos (by norm_num)]; norm_num)
      (by rw [abs_lt]; constructor <;> norm_num)]
    norm_num
  have r4 : roundDouble (100 : ℚ) = (100 : ℚ) := by
    rw [roundDouble_eq_of (100 : ℚ) 6 7036874417766400
      (by rw [abs_of_pos (by norm_num)]; norm_num)
      (by rw [abs_of_pos (by norm_num)]; norm_num)
      (by rw [abs_lt]; constructor <;> norm_num)]
    norm_num
  have r5 : roundDouble (1 / 2 : ℚ) = (1 / 2 : ℚ) := by
    rw [roundDouble_eq_of (1 / 2 : ℚ) (-1) 4503599627370496
      (by rw [abs_of_pos (by norm_num)]; norm_num)
      (by rw [abs_of_pos (by norm_num)]; norm_num)
      (by rw [abs_lt]; constructor <;> norm_num)]
    norm_num
  have r6 : roundDouble (1 / 2000 : ℚ) = (1152921504606847 / 2305843009213693952 : ℚ) := by
    rw [roundDouble_eq_of (1 / 2000 : ℚ) (-11) 4611686018427388
      (by rw [abs_of_pos (by norm_num)]; norm_num)
      (by rw [abs_of_pos (by norm_num)]; norm_num)
      (by rw [abs_lt]; constructor <;> norm_num)]
    norm_num
  have r7 : roundDouble (144115188075855875 / 288230376151711744 : ℚ) = (1 / 2 : ℚ) := by
    rw [roundDouble_eq_of (144115188075855875 / 288230376151711744 : ℚ) (-1) 4503599627370496
      (by rw [abs_of_pos (by norm_num)]; norm_num)
      (by rw [abs_of_pos (by norm_num)]; norm_num)
      (by rw [abs_lt]; constructor <;> norm_num)]
    norm_num
  have r8 : roundDouble (-100 : ℚ) = (-100 : ℚ) := by
    rw [roundDouble_eq_of (-100 : ℚ) 6 (-7036874417766400)
      (by rw [abs_of_neg (by norm_num)]; norm_num)
      (by rw [abs_of_neg (by norm_num)]; norm_num)
      (by rw [abs_lt]; constructor <;> norm_num)]
    norm_num
  have r9 : roundDouble (1 : ℚ) = (1 : ℚ) := by
    rw [roundDouble_eq_of (1 : ℚ) 0 4503599627370496
      (by rw [abs_of_pos (by norm_num)]; norm_num)
      (by rw [abs_of_pos (by norm_num)]; norm_num)
      (by rw [abs_lt]; constructor <;> norm_num)]
    norm_num
  have r10 : roundDouble (0 : ℚ) = 0 := by simp [roundDouble]
  have r11 : roundDouble (-100000 : ℚ) = (-100000 : ℚ) := by
    rw [roundDouble_eq_of (-100000 : ℚ) 16 (-6871947673600000)
      (by rw [abs_of_neg (by norm_num)]; norm_num)
      (by rw [abs_of_neg (by norm_num)]; norm_num)
      (by rw [abs_lt]; constructor <;> norm_num)]
    norm_num
  have r12 : roundDouble (3000000000 : ℚ) = (3000000000 : ℚ) := by
    rw [roundDouble_eq_of (3000000000 : ℚ) 31 6291456000000000
      (by rw [abs_of_pos (by norm_num)]; norm_num)
      (by rw [abs_of_pos (by norm_num)]; norm_num)
      (by rw [abs_lt]; constructor <;> norm_num)]
    norm_num
  have r13 : roundDouble (3000000 : ℚ) = (3000000 : ℚ) := by
    rw [roundDouble_eq_of (3000000 : ℚ) 21 6442450944000000
      (by rw [abs_of_pos (by norm_num)]; norm_num)
      (by rw [abs_of_pos (by norm_num)]; norm_num)
      (by rw [abs_lt]; constructor <;> norm_num)]
    norm_num
  have t1 : toInt (1 / 2 : ℚ) = 0 :=
    toInt_eq_of _ _ (truncate_eq_of_nonneg _ 0 (by norm_num) (by norm_num) (by norm_num))
      (by norm_num) (by norm_num)
  have t2 : toInt (1000 : ℚ) = 1000 :=
    toInt_eq_of _ _ (truncate_eq_of_nonneg _ 1000 (by norm_num) (by norm_num) (by norm_num))
      (by norm_num) (by norm_num)
  have t3 : toInt (3000000000 : ℚ) = -2147483648 := by
    have ht : truncate (3000000000 : ℚ) = 3000000000 :=
      truncate_eq_of_nonneg _ 3000000000 (by norm_num) (by norm_num) (by norm_num)
    rw [toInt, ht]
    decide
  have e : toWidgetCoordinates sampleWidget (1 / 2) 0 = (0, 1000) := by
    simp only [toWidgetCoordinates, sampleWidget, ASPECT_RATIO]
    norm_num [r1, r2, r3, r4, r5, r6, r7, r8, r9, r10, r11, r12, r13, t1, t2]
  have e2 : toScaleCoordinatesDouble sampleWidget 0 1000 = (0, 0) := by
    simp only [toScaleCoordinatesDouble, sampleWidget, ASPECT_RATIO]
    norm_num [r1, r2, r3, r4, r5, r6, r7, r8, r9, r10, r11, r12, r13, t1, t2]
  have e3 : toWidgetCoordinates sampleWidget 3000000000 0 = (-2147483648, 1000) := by
    simp only [toWidgetCoordinates, sampleWidget, ASPECT_RATIO]
    norm_num [r1, r2, r3, r4, r5, r6, r7, r8, r9, r10, r11, r12, r13, t1, t2, t3]
  refine ⟨by decide, by decide, by norm_num [sampleWidget], by norm_num [sampleWidget], e, e2,
    ?_, e3⟩
  rw [e]
  simp only [toScaleCoordinates, sampleWidget, ASPECT_RATIO]
  intro h
  have h1 := congrArg Prod.fst h
  norm_num at h1

/-- C9, amended: for a widget of positive width and height, both at most 2^24, a positive
zoom factor, an origin within 65536 visible widths and heights of 0 and a domain point
whose widget position is within 2^24 pixels of the widget origin, mapping the point to its
pixel with `toWidgetCoordinates` (as the program computes it, with its roundings and its
casts to `int`) and back with `toScaleCoordinates` moves it by less than 1.01 pixel in
exact arithmetic, that is by less than `1.01 / z` in x and `1.01 * ASPECT_RATIO / z` in y,
and by less than `1 + 1/32` pixel as the program computes `toScaleCoordinates`, in
doubles. -/
theorem c9_domain_round_trip_within_pixel (s : Widget) (x y : ℚ)
    (hw : 0 < s.width) (hw2 : s.width ≤ 16777216)
    (hh : 0 < s.height) (hh2 : s.height ≤ 16777216)
    (hz : 0 < s.zoomCtx.zoomFactor)
    (hleft : |s.zoomCtx.left| ≤ 65536 * ((s.width : ℚ) / s.zoomCtx.zoomFactor))
    (hbottom : |s.zoomCtx.bottom|
      ≤ 65536 * ((s.height : ℚ) / s.zoomCtx.zoomFactor * ASPECT_RATIO))
    (hx : |(widgetPosition s x y).1| ≤ 16777216)
    (hy : |(widgetPosition s x y).2| ≤ 16777216) :
    |(toScaleCoordinates s (toWidgetCoordinates s x y).1 (toWidgetCoordinates s x y).2).1 - x|
        < (1 + 1 / 100) / s.zoomCtx.zoomFactor ∧
    |(toScaleCoordinates s (toWidgetCoordinates s x y).1 (toWidgetCoordinates s x y).2).2 - y|
        < (1 + 1 / 100) * ASPECT_RATIO / s.zoomCtx.zoomFactor ∧
    |(toScaleCoordinatesDouble s (toWidgetCoordinates s x y).1
        (toWidgetCoordinates s x y).2).1 - x| < (1 + 1 / 32) / s.zoomCtx.zoomFactor ∧
    |(toScaleCoordinatesDouble s (toWidgetCoordinates s x y).1
        (toWidgetCoordinates s x y).2).2 - y|
        < (1 + 1 / 32) * ASPECT_RATIO / s.zoomCtx.zoomFactor := by
  have hh2' : (s.height : ℚ) ≤ 16777216 := by exact_mod_cast hh2
  have hh' : (0 : ℚ) < s.height := by exact_mod_cast hh
  have ex := widgetPositionDouble_fst_error s x y hw hz hleft
  have ey := widgetPositionDouble_snd_error s x y hh hz hbottom
  -- the doubles are within 1/100 of the exact position
  have ex1 : |(widgetPositionDouble s x y).1 - (widgetPosition s x y).1| ≤ 1 / 1024 := by
    have : 1 / 2 ^ 34 * |(widgetPosition s x y).1| ≤ 1 / 2 ^ 34 * 16777216 :=
      mul_le_mul_of_nonneg_left hx (by norm_num)
    linarith
  have ey1 : |(widgetPositionDouble s x y).2 - (widgetPosition s x y).2| ≤ 5 / 1024 := by
    have : 1 / 2 ^ 32 * |(widgetPosition s x y).2| ≤ 1 / 2 ^ 32 * 16777216 :=
      mul_le_mul_of_nonneg_left hy (by norm_num)
    linarith
  -- they are within the range of int
  have rx : |(widgetPositionDouble s x y).1| ≤ 2147483646 := by
    have := abs_sub_abs_le_abs_sub (widgetPositionDouble s x y).1 (widgetPosition s x y).1
    linarith
  have ry : |(widgetPositionDouble s x y).2| ≤ 2147483646 := by
    have := abs_sub_abs_le_abs_sub (widgetPositionDouble s x y).2 (widgetPosition s x y).2
    linarith
  have tx := toInt_sub_abs_lt _ rx
  have ty := toInt_sub_abs_lt _ ry
  -- the pixel is within 1.01 of the exact position
  have px : |((toWidgetCoordinates s x y).1 : ℚ) - (widgetPosition s x y).1| < 1 + 1 / 100 := by
    rw [toWidgetCoordinates_eq]
    have := abs_add ((toInt (widgetPositionDouble s x y).1 : ℚ) - (widgetPositionDouble s x y).1)
      ((widgetPositionDouble s x y).1 - (widgetPosition s x y).1)
    rw [sub_add_sub_cancel] at this
    simp only
    linarith
  have py : |((toWidgetCoordinates s x y).2 : ℚ) - (widgetPosition s x y).2| < 1 + 1 / 100 := by
    rw [toWidgetCoordinates_eq]
    have := abs_add ((toInt (widgetPositionDouble s x y).2 : ℚ) - (widgetPositionDouble s x y).2)
      ((widgetPositionDouble s x y).2 - (widgetPosition s x y).2)
    rw [sub_add_sub_cancel] at this
    simp only
    linarith
  exact toScaleCoordinates_near s _ _ x y hw hw2 hh hh2 hz hleft hbottom hx hy px py

/-- Instance of the amended C9 on the sample widget (1000 x 1000 pixels, zoom factor 1,
origin (0, 0)) at the domain point (1/2, 1/3), whose widget position is (1/2, 2990/3). -/
theorem c9_domain_round_trip_within_pixel_witness :
    (0 < sampleWidget.width ∧ sampleWidget.width ≤ 16777216 ∧
      0 < sampleWidget.height ∧ sampleWidget.height ≤ 16777216 ∧
      0 < sampleWidget.zoomCtx.zoomFactor ∧
      |sampleWidget.zoomCtx.left|
        ≤ 65536 * ((sampleWidget.width : ℚ) / sampleWidget.zoomCtx.zoomFactor) ∧
      |sampleWidget.zoomCtx.bottom|
        ≤ 65536 * ((sampleWidget.height : ℚ) / sampleWidget.zoomCtx.zoomFactor * ASPECT_RATIO) ∧
      |(widgetPosition sampleWidget (1 / 2) (1 / 3)).1| ≤ 16777216 ∧
      |(widgetPosition sampleWidget (1 / 2) (1 / 3)).2| ≤ 16777216) ∧
    (|(toScaleCoordinates sampleWidget (toWidgetCoordinates sampleWidget (1 / 2) (1 / 3)).1
        (toWidgetCoordinates sampleWidget (1 / 2) (1 / 3)).2).1 - 1 / 2|
        < (1 + 1 / 100) / sampleWidget.zoomCtx.zoomFactor ∧
    |(toScaleCoordinates sampleWidget (toWidgetCoordinates sampleWidget (1 / 2) (1 / 3)).1
        (toWidgetCoordinates sampleWidget (1 / 2) (1 / 3)).2).2 - 1 / 3|
        < (1 + 1 / 100) * ASPECT_RATIO / sampleWidget.zoomCtx.zoomFactor ∧
    |(toScaleCoordinatesDouble sampleWidget (toWidgetCoordinates sampleWidget (1 / 2) (1 / 3)).1
        (toWidgetCoordinates sampleWidget (1 / 2) (1 / 3)).2).1 - 1 / 2|
        < (1 + 1 / 32) / sampleWidget.zoomCtx.zoomFactor ∧
    |(toScaleCoordinatesDouble sampleWidget (toWidgetCoordinates sampleWidget (1 / 2) (1 / 3)).1
        (toWidgetCoordinates sampleWidget (1 / 2) (1 / 3)).2).2 - 1 / 3|
        < (1 + 1 / 32) * ASPECT_RATIO / sampleWidget.zoomCtx.zoomFactor) := by
  have h1 : (0 : ℚ) < sampleWidget.zoomCtx.zoomFactor := by norm_num [sampleWidget]
  have h2 : |sampleWidget.zoomCtx.left|
      ≤ 65536 * ((sampleWidget.width : ℚ) / sampleWidget.zoomCtx.zoomFactor) := by
    norm_num [sampleWidget]
  have h3 : |sampleWidget.zoomCtx.bottom|
      ≤ 65536 * ((sampleWidget.height : ℚ) / sampleWidget.zoomCtx.zoomFactor * ASPECT_RATIO) := by
    norm_num [sampleWidget, ASPECT_RATIO]
  have h4 : |(widgetPosition sampleWidget (1 / 2) (1 / 3)).1| ≤ 16777216 := by
    simp only [widgetPosition, sampleWidget, ASPECT_RATIO]
    norm_num [abs_le]
  have h5 : |(widgetPosition sampleWidget (1 / 2) (1 / 3)).2| ≤ 16777216 := by
    simp only [widgetPosition, sampleWidget, ASPECT_RATIO]
    norm_num [abs_le]
  exact ⟨⟨by decide, by decide, by decide, by decide, h1, h2, h3, h4, h5⟩,
    c9_domain_round_trip_within_pixel sampleWidget (1 / 2) (1 / 3) (by decide) (by decide)
      (by decide) (by decide) h1 h2 h3 h4 h5⟩

/-- C10, evaluated on the code: `addMargins` subtracts 10% of the original width and
height on the left and at the bottom, but adds 11% of them on the right and at the top,
because `width()` and `height()` are read again after the left and bottom edges have
moved.  For curve A with key frames (0, 0) and (10, 5), whose bounding box is
`[0, 10] x [0, 5]`, the inner `centerOn` is called with
`(xmin, xmax, ymin, ymax) = (-1, 111/10, -1/2, 111/20)`, not with `(-1, 11, -1/2, 11/2)`. -/
theorem c10_margins_on_code :
    (∀ ret : RectD,
      (addMargins ret).left = ret.left - (ret.right - ret.left) / 10 ∧
      (addMargins ret).right = ret.right + (ret.right - ret.left) * (11 / 100) ∧
      (addMargins ret).bottom = ret.bottom - (ret.top - ret.bottom) / 10 ∧
      (addMargins ret).top = ret.top + (ret.top - ret.bottom) * (11 / 100)) ∧
    curvesBoundingBox scenarioWidget [curveA]
      = { left := 0, bottom := 0, right := 10, top := 5, null := false } ∧
    centerOnCurvesArgs scenarioWidget [curveA] = (-1, 111 / 10, -1 / 2, 111 / 20) ∧
    centerOnCurvesArgs scenarioWidget [curveA]
      ≠ (0 - (10 - 0) / 10, 10 + (10 - 0) / 10, 0 - (5 - 0) / 10, 5 + (5 - 0) / 10) := by
  refine ⟨?_, curvesBoundingBox_scenario, centerOnCurvesArgs_scenario, ?_⟩
  · intro ret
    obtain ⟨h1, h2, h3, h4⟩ := addMargins_edges ret
    refine ⟨h1, ?_, h3, ?_⟩
    · rw [h2]
      ring
    · rw [h4]
      ring
  · rw [centerOnCurvesArgs_scenario]
    intro h
    have h2 := congrArg (fun p : ℚ × ℚ × ℚ × ℚ => p.2.1) h
    norm_num at h2

/-- C11, as stated, fails: on the sample widget, `centerOn 5 5 3 3`, a rectangle without
width and without height, moves the origin from (0, 0) to (5, 3) and sets the zoom factor
to `h / 0`, which is plus infinity; and `centerOn 0 0 10 0`, a rectangle without width
whose `ymax` is below `ymin`, sets the zoom factor to -10. -/
theorem c11_degenerate_centerOn_counterexample :
    0 < sampleWidget.width ∧ 0 < sampleWidget.height ∧
    centerOnIEEE sampleWidget 5 5 3 3
      = { left := 5, bottom := 3, zoomFactor := Double.posInf } ∧
    sampleWidget.zoomCtx.left ≠ 5 ∧
    (∀ q : ℚ, (centerOnIEEE sampleWidget 5 5 3 3).zoomFactor ≠ Double.finite q) ∧
    (centerOnIEEE sampleWidget 0 0 10 0).zoomFactor = Double.finite (-10) := by
  have e : centerOnIEEE sampleWidget 5 5 3 3
      = { left := 5, bottom := 3, zoomFactor := Double.posInf } := by
    simp only [centerOnIEEE, Double.div, sampleWidget, ASPECT_RATIO]
    norm_num [Double.lt]
  refine ⟨by decide, by decide, e, ?_, ?_, ?_⟩
  · norm_num [sampleWidget]
  · intro q
    rw [e]
    simp
  · simp only [centerOnIEEE, Double.div, sampleWidget, ASPECT_RATIO]
    norm_num [Double.lt]

/-- C11, amended: for a widget of positive width and height and a rectangle with
`xmin ≤ xmax` and `ymin ≤ ymax` that has no width or no height, `centerOn` leaves a zoom
factor that is positive and finite or plus infinity, never zero or negative: without
width but with a height it is `h / (ymax - ymin)`, without height but with a width it is
`w / (xmax - xmin)`, both positive and finite, and without width and height the origin
becomes `(xmin, ymin)` and the zoom factor plus infinity. -/
theorem c11_degenerate_centerOn (s : Widget) (xmin xmax ymin ymax : ℚ)
    (hw : 0 < s.width) (hh : 0 < s.height) (hx : xmin ≤ xmax) (hy : ymin ≤ ymax)
    (hdeg : xmax = xmin ∨ ymax = ymin) :
    ((∃ q : ℚ, 0 < q ∧ (centerOnIEEE s xmin xmax ymin ymax).zoomFactor = Double.finite q) ∨
      (centerOnIEEE s xmin xmax ymin ymax).zoomFactor = Double.posInf) ∧
    (ymin < ymax → (centerOnIEEE s xmin xmax ymin ymax).zoomFactor
      = Double.finite (s.height * ASPECT_RATIO / (ymax - ymin))) ∧
    (xmin < xmax → (centerOnIEEE s xmin xmax ymin ymax).zoomFactor
      = Double.finite (s.width / (xmax - xmin))) ∧
    (xmax = xmin → ymax = ymin → centerOnIEEE s xmin xmax ymin ymax
      = { left := xmin, bottom := ymin, zoomFactor := Double.posInf }) := by
  have hw' : (0 : ℚ) < s.width := by exact_mod_cast hw
  have hh' : (0 : ℚ) < s.height * ASPECT_RATIO := by
    have : (0 : ℚ) < s.height := by exact_mod_cast hh
    unfold ASPECT_RATIO
    positivity
  have hwh : ¬ ((s.width : ℚ) / (s.height * ASPECT_RATIO) < 0) :=
    not_lt.mpr (div_pos hw' hh').le
  -- without width, with a height
  have caseA : xmax = xmin → ymin < ymax → (centerOnIEEE s xmin xmax ymin ymax).zoomFactor
      = Double.finite (s.height * ASPECT_RATIO / (ymax - ymin)) := by
    intro hxe hylt
    have hch : ymax - ymin ≠ 0 := (sub_pos.mpr hylt).ne'
    simp only [centerOnIEEE, Double.div, hxe, sub_self, hch, hh'.ne', ne_eq,
      not_false_eq_true, if_true, zero_div, Double.lt, decide_eq_true_eq, hwh, if_false]
  -- without height, with a width
  have caseB : ymax = ymin → xmin < xmax → (centerOnIEEE s xmin xmax ymin ymax).zoomFactor
      = Double.finite (s.width / (xmax - xmin)) := by
    intro hye hxlt
    have hcw : xmax - xmin ≠ 0 := (sub_pos.mpr hxlt).ne'
    have hcwp : 0 < xmax - xmin := sub_pos.mpr hxlt
    simp only [centerOnIEEE, Double.div, hye, sub_self, hcw, hh'.ne', ne_eq,
      not_false_eq_true, if_true, not_true_eq_false, if_false, hcwp, Double.lt]
  -- without width and height
  have caseC : xmax = xmin → ymax = ymin → centerOnIEEE s xmin xmax ymin ymax
      = { left := xmin, bottom := ymin, zoomFactor := Double.posInf } := by
    intro hxe hye
    simp only [centerOnIEEE, Double.div, hxe, hye, sub_self, hh'.ne', ne_eq,
      not_false_eq_true, if_true, not_true_eq_false, if_false, lt_irrefl, Double.lt, hh',
      Bool.false_eq_true, mul_zero, zero_div, sub_zero]
    congr 1
    ring
  refine ⟨?_, ?_, ?_, caseC⟩
  · rcases hdeg with hxe | hye
    · rcases hy.lt_or_eq with hylt | hyeq
      · exact Or.inl ⟨_, div_pos hh' (sub_pos.mpr hylt), caseA hxe hylt⟩
      · right
        rw [caseC hxe hyeq.symm]
    · rcases hx.lt_or_eq with hxlt | hxeq
      · exact Or.inl ⟨_, div_pos hw' (sub_pos.mpr hxlt), caseB hye hxlt⟩
      · right
        rw [caseC hxeq.symm hye]
  · intro hylt
    rcases hdeg with hxe | hye
    · exact caseA hxe hylt
    · exact absurd (sub_eq_zero.mpr hye) (sub_pos.mpr hylt).ne'
  · intro hxlt
    rcases hdeg with hxe | hye
    · exact absurd (sub_eq_zero.mpr hxe) (sub_pos.mpr hxlt).ne'
    · exact caseB hye hxlt

/-- Instance of the amended C11 on the sample widget: `centerOn 5 5 3 3`. -/
theorem c11_degenerate_centerOn_witness :
    centerOnIEEE sampleWidget 5 5 3 3
      = { left := 5, bottom := 3, zoomFactor := Double.posInf } :=
  (c11_degenerate_centerOn sampleWidget 5 5 3 3 (by decide) (by decide) (le_refl _)
    (le_refl _) (Or.inl rfl)).2.2.2 rfl rfl

/-- C13, as stated, fails: in the scenario widget, with the drag locked to horizontal
movement, moving the pointer from pixel (10, 950) to pixel (20, 900) is a domain-space Y
delta of 5, and the value of the selected key frame (t=10, v=5) stays 5. -/
theorem c13_value_update_counterexample :
    draggingScenarioWidget.state = EventState.DRAGGING_KEYS ∧
    axisLock draggingScenarioWidget 20 900 = (1, 0) ∧
    (toScaleCoordinates draggingScenarioWidget 20 900).2
      - (toScaleCoordinates draggingScenarioWidget draggingScenarioWidget.zoomCtx.oldClick.1
          draggingScenarioWidget.zoomCtx.oldClick.2).2 = 5 ∧
    (draggingScenarioWidget.keyFrames 1).value = 5 ∧
    (mouseMoveEvent draggingScenarioWidget 20 900).map (fun s' => (s'.keyFrames 1).value)
      = some 5 ∧
    (mouseMoveEvent draggingScenarioWidget 20 900).map (fun s' => (s'.keyFrames 1).value)
      ≠ some ((draggingScenarioWidget.keyFrames 1).value + 5) := by
  have hv : (draggingScenarioWidget.keyFrames 1).value = 5 := by
    simp [draggingScenarioWidget, selectedScenarioWidget, scenarioWidget]
  have hm : (mouseMoveEvent draggingScenarioWidget 20 900).map
      (fun s' => (s'.keyFrames 1).value) = some 5 := by
    simp only [mouseMoveEvent, scenario_toScale]
    simp [draggingScenarioWidget, selectedScenarioWidget, scenarioWidget, sampleWidget,
      dragSelectedKeys, dragSelectedKey, withinNeighbours, curveA, setTime, setValue]
    norm_num
  refine ⟨rfl, rfl, ?_, hv, hm, ?_⟩
  · rw [scenario_toScale, scenario_toScale]
    simp only [draggingScenarioWidget]
    norm_num
  · rw [hm, hv]
    norm_num

/-- C13, amended: in a key frame drag step (`mouseMoveEvent` in `DRAGGING_KEYS` state, the
selection holding each key frame at most once and naming registered curve views and key
frames of theirs), the value of each selected key frame is increased by the domain-space
Y delta between the previous and the current pointer position multiplied by the Y
component of the axis lock, and no other value changes: under the vertical lock `(0, 1)`
the value is increased by the Y delta, under the horizontal lock `(1, 0)` it is
unchanged. -/
theorem c13_value_update (s : Widget) (x y : Int)
    (hstate : s.state = EventState.DRAGGING_KEYS)
    (hreg : ∀ it ∈ s.selectedKeyFrames, EntryRegistered s.curves it)
    (hu : (s.selectedKeyFrames.map Prod.snd).Nodup) :
    ∃ s', mouseMoveEvent s x y = some s' ∧
      s'.mouseDragOrientation = axisLock s x y ∧
      (∀ k, (s'.keyFrames k).value
        = if k ∈ s.selectedKeyFrames.map Prod.snd then
            (s.keyFrames k).value
              + ((toScaleCoordinates s x y).2
                  - (toScaleCoordinates s s.zoomCtx.oldClick.1 s.zoomCtx.oldClick.2).2)
                * (axisLock s x y).2
          else (s.keyFrames k).value) ∧
      (axisLock s x y = (0, 1) → ∀ k ∈ s.selectedKeyFrames.map Prod.snd,
        (s'.keyFrames k).value
          = (s.keyFrames k).value
            + ((toScaleCoordinates s x y).2
                - (toScaleCoordinates s s.zoomCtx.oldClick.1 s.zoomCtx.oldClick.2).2)) ∧
      (axisLock s x y = (1, 0) → ∀ k, (s'.keyFrames k).value = (s.keyFrames k).value) := by
  obtain ⟨kf', h, hv⟩ := dragSelectedKeys_value s.curves (axisLock s x y)
    (toScaleCoordinates s x y)
    (((toScaleCoordinates s x y).1
        - (toScaleCoordinates s s.zoomCtx.oldClick.1 s.zoomCtx.oldClick.2).1)
        * (axisLock s x y).1,
     ((toScaleCoordinates s x y).2
        - (toScaleCoordinates s s.zoomCtx.oldClick.1 s.zoomCtx.oldClick.2).2)
        * (axisLock s x y).2)
    s.selectedKeyFrames s.keyFrames hreg hu
  have hev : mouseMoveEvent s x y
      = some { s with mouseDragOrientation := axisLock s x y
                      mustSetDragOrientation := false
                      zoomCtx := { s.zoomCtx with oldClick := (x, y) }
                      keyFrames := kf' } := by
    unfold mouseMoveEvent
    simp only [hstate]
    unfold axisLock at h
    rw [h]
    rfl
  refine ⟨_, hev, rfl, hv, ?_, ?_⟩
  · intro hlock k hk
    have := hv k
    rw [if_pos hk, hlock] at this
    simpa using this
  · intro hlock k
    have := hv k
    rw [hlock] at this
    simpa using this

/-- Instance of the amended C13: the horizontal drag of the scenario widget from pixel
(10, 950) to pixel (20, 900). -/
theorem c13_value_update_witness :
    ∃ s', mouseMoveEvent draggingScenarioWidget 20 900 = some s' ∧
      s'.mouseDragOrientation = axisLock draggingScenarioWidget 20 900 ∧
      (axisLock draggingScenarioWidget 20 900 = (1, 0) →
        ∀ k, (s'.keyFrames k).value = (draggingScenarioWidget.keyFrames k).value) := by
  obtain ⟨s', h1, h2, _, _, h5⟩ := c13_value_update draggingScenarioWidget 20 900 rfl
    (by
      intro it hit
      have e : it = (100, 1) := by
        simpa [draggingScenarioWidget, selectedScenarioWidget] using hit
      subst e
      exact ⟨curveA, rfl, by simp [curveA]⟩)
    (by simp [draggingScenarioWidget, selectedScenarioWidget])
  exact ⟨s', h1, h2, h5⟩

/-- C14: click selection.  After `mousePressEvent` with a button other than the right
one, for every prior state, the key frame selection is the one pair that
`isNearbyKeyFrame` returns at the click position when it finds a key frame and is empty
otherwise; and when `isNearbyCurve` finds a curve view, that curve view is a registered
one, and the curve list is the prior one with the found curve view selected and every
other curve view deselected. -/
theorem c14_click_selection (s : Widget) (getValueAt : Nat → ℚ → ℚ) (button : MouseButton)
    (altModifier : Bool) (pos : Int × Int) (hb : button ≠ MouseButton.RightButton) :
    (mousePressEvent s getValueAt button altModifier pos).selectedKeyFrames
      = (isNearbyKeyFrame s pos).toList ∧
    (∀ found, isNearbyCurve s getValueAt pos = some found →
      (∃ c ∈ s.curves, c.ptr = found) ∧
      (mousePressEvent s getValueAt button altModifier pos).curves
        = s.curves.map fun c => { c with selected := decide (c.ptr = found) }) := by
  have hcurve : isNearbyCurve { s with mustSetDragOrientation := true } getValueAt pos
      = isNearbyCurve s getValueAt pos :=
    isNearbyCurveLoop_congr s _ getValueAt pos s.curves rfl rfl rfl
  obtain ⟨hc, hsel⟩ := mousePressEvent_fields s getValueAt button altModifier pos hb _ rfl
  rw [hcurve] at hc hsel
  constructor
  · rw [hsel]
    congr 1
    cases hfc : isNearbyCurve s getValueAt pos with
    | none =>
      exact isNearbyKeyFrame_congr s _ pos id rfl rfl rfl rfl (by simp)
        (fun c => ⟨rfl, rfl, rfl⟩)
    | some found =>
      exact isNearbyKeyFrame_congr s _ pos
        (fun c => { c with selected := decide (c.ptr = found) }) rfl rfl rfl rfl
        (selectCurve_curves _ found) (fun c => ⟨rfl, rfl, rfl⟩)
  · intro found hfound
    rw [hfound] at hc
    obtain ⟨c, hcm, hcp, _⟩ := isNearbyCurveLoop_mem s getValueAt pos s.curves found hfound
    exact ⟨⟨c, hcm, hcp⟩, hc.trans (selectCurve_curves _ found)⟩

/-- Instance of C14: a left click at pixel (12, 953) in the scenario widget, next to the
key frame (t=10, v=5) of curve A, which projects to pixel (10, 950), selects that key
frame. -/
theorem c14_click_selection_witness :
    (mousePressEvent scenarioWidget (fun _ _ => 0) MouseButton.LeftButton false
      (12, 953)).selectedKeyFrames = [(100, 1)] := by
  have h := (c14_click_selection scenarioWidget (fun _ _ => 0) MouseButton.LeftButton false
    (12, 953) (by decide)).1
  have h0 : keyFrameAccepted scenarioWidget (12, 953) 0 = false := by
    simp only [keyFrameAccepted, scenario_projections.1]
    decide
  have h1 : keyFrameAccepted scenarioWidget (12, 953) 1 = true := by
    simp only [keyFrameAccepted, scenario_projections.2]
    decide
  have hk : isNearbyKeyFrame scenarioWidget (12, 953) = some (100, 1) := by
    have hkeys : isNearbyKeyFrameKeys scenarioWidget (12, 953) 100 [0, 1] = some (100, 1) := by
      simp only [isNearbyKeyFrameKeys, h0, h1, Bool.false_eq_true, if_false, if_true]
    have hv : curveA.visible = true := rfl
    have hp : curveA.ptr = 100 := rfl
    have hkk : curveA.keys = [0, 1] := rfl
    have hc : scenarioWidget.curves = [curveA] := rfl
    rw [isNearbyKeyFrame, hc, isNearbyKeyFrameCurves, if_pos hv, hp, hkk, hkeys]
  rw [h, hk]
  rfl

/-- C15: pan grab invariant.  For a widget of positive width and height and a positive
zoom factor, `mouseMoveEvent` in `DRAGGING_VIEW` state returns a state with the same zoom
factor in which the current pointer pixel is at the domain point that the previous
pointer pixel had before the move; the key frame heap is unchanged. -/
theorem c15_pan_grab (s : Widget) (x y : Int)
    (hstate : s.state = EventState.DRAGGING_VIEW)
    (_hw : 0 < s.width) (_hh : 0 < s.height) (_hz : 0 < s.zoomCtx.zoomFactor) :
    ∃ s', mouseMoveEvent s x y = some s' ∧
      s'.zoomCtx.zoomFactor = s.zoomCtx.zoomFactor ∧
      toScaleCoordinates s' x y
        = toScaleCoordinates s s.zoomCtx.oldClick.1 s.zoomCtx.oldClick.2 ∧
      s'.keyFrames = s.keyFrames := by
  unfold mouseMoveEvent
  simp only [hstate]
  refine ⟨_, rfl, rfl, ?_, rfl⟩
  simp only [toScaleCoordinates]
  ext
  · simp only
    ring
  · simp only
    ring

/-- Instance of C15 on the sample widget: panning from pixel (100, 200) to (130, 180). -/
theorem c15_pan_grab_witness :
    ∃ s', mouseMoveEvent panningWidget 130 180 = some s' ∧
      s'.zoomCtx.zoomFactor = panningWidget.zoomCtx.zoomFactor ∧
      toScaleCoordinates s' 130 180
        = toScaleCoordinates panningWidget panningWidget.zoomCtx.oldClick.1
            panningWidget.zoomCtx.oldClick.2 ∧
      s'.keyFrames = panningWidget.keyFrames :=
  c15_pan_grab panningWidget 130 180 rfl (by decide) (by decide)
    (by norm_num [panningWidget, sampleWidget])

end CurveWidget
